import Mathlib

/-!
Verification of the SparkyFitness Garmin microservice (`main.py`).

The development shallowly embeds the pure core of the service:
JSON-like values, the recursive sanitizer `clean_garmin_data`, the date-range
generator `get_dates_in_range`, the health/wellness metric orchestrator, the
activity detail expander, and the MFA state store with its handlers.

Python floats are modelled as rationals; Python `None` is the `null`
constructor; a Python function raising an exception is modelled with `Except`.
-/

namespace Sparky

/-- JSON-like values as handled by the service: Python `None`, booleans,
numbers (ints and floats, modelled as rationals), strings (as character
lists), lists and (ordered) dicts. -/
inductive JVal where
  | null : JVal
  | bool : Bool → JVal
  | num : ℚ → JVal
  | str : List Char → JVal
  | arr : List JVal → JVal
  | obj : List (List Char × JVal) → JVal
deriving Inhabited

namespace JVal

/-- Python `v is None`. -/
def isNull : JVal → Bool
  | .null => true
  | _ => false

/-- Python `v == 0`: the integer/float zero and `False` compare equal to `0`;
nothing else the service handles does. -/
def pyZero : JVal → Bool
  | .num q => decide (q = 0)
  | .bool b => !b
  | _ => false

/-- Python truthiness of a JSON-like value. -/
def pyTruthy : JVal → Bool
  | .null => false
  | .bool b => b
  | .num q => !decide (q = 0)
  | .str s => !s.isEmpty
  | .arr xs => !xs.isEmpty
  | .obj kvs => !kvs.isEmpty

end JVal

/-- The element/value filter used by the sanitizer:
`item is not None and item != 0`. -/
def keepItem (v : JVal) : Bool := !v.isNull && !v.pyZero

/-- `needle` occurs as a prefix of `hay`. -/
def listIsPrefixOf : List Char → List Char → Bool
  | [], _ => true
  | _ :: _, [] => false
  | n :: ns, h :: hs => n == h && listIsPrefixOf ns hs

/-- Python `needle in hay` for strings: substring occurrence. -/
def hasSubstr (n : List Char) : List Char → Bool
  | [] => n.isEmpty
  | c :: rest => listIsPrefixOf n (c :: rest) || hasSubstr n rest

/-- The denylist of Garmin internal identifier keys dropped by the sanitizer. -/
def denyKeys : List (List Char) :=
  ["ownerId".data, "userProfilePk".data, "permissionId".data,
   "userRoles".data, "equipmentTypeId".data]

/-- A mapping key survives the sanitizer's key tests:
`k not in [...]` and `'endConditionCompare' not in k`. -/
def keyAllowed (k : List Char) : Bool :=
  !(denyKeys.contains k) && !(hasSubstr "endConditionCompare".data k)

/-- The full per-entry test on a raw mapping entry:
`v is not None and v != 0 and k not in [...] and 'endConditionCompare' not in k`. -/
def rawKeep (k : List Char) (v : JVal) : Bool :=
  !v.isNull && !v.pyZero && keyAllowed k

/-- Python `s.replace('""', '"')`: left-to-right, non-overlapping. -/
def repDD : List Char → List Char
  | '\"' :: '\"' :: rest => '\"' :: repDD rest
  | c :: rest => c :: repDD rest
  | [] => []

theorem repDD_length_le : ∀ s : List Char, (repDD s).length ≤ s.length := by
  intro s
  induction s using repDD.induct <;> simp [repDD, *] <;> omega

/-! ### A model of `json.loads`

A fuel-indexed recursive-descent parser over the JSON grammar as accepted by
Python's strict `json.loads` (objects, arrays, strings with escapes, numbers,
`true`/`false`/`null`, with whitespace between tokens and full input
consumption). -/

/-- JSON whitespace. -/
def isJsonWs (c : Char) : Bool := c == ' ' || c == '\t' || c == '\n' || c == '\r'

/-- Drop leading JSON whitespace. -/
def skipWs : List Char → List Char
  | [] => []
  | c :: cs => if isJsonWs c then skipWs cs else c :: cs

theorem skipWs_length_le : ∀ cs : List Char, (skipWs cs).length ≤ cs.length := by
  intro cs
  induction cs with
  | nil => simp [skipWs]
  | cons c cs ih => by_cases h : isJsonWs c <;> simp [skipWs, h] <;> omega

/-- Hex digit value, if any. -/
def hexVal (c : Char) : Option Nat :=
  if '0' ≤ c ∧ c ≤ '9' then some (c.toNat - '0'.toNat)
  else if 'a' ≤ c ∧ c ≤ 'f' then some (c.toNat - 'a'.toNat + 10)
  else if 'A' ≤ c ∧ c ≤ 'F' then some (c.toNat - 'A'.toNat + 10)
  else none

/-- Decode a single-character JSON escape. -/
def escChar : Char → Option Char
  | '\"' => some '\"'
  | '\\' => some '\\'
  | '/' => some '/'
  | 'b' => some (Char.ofNat 8)
  | 'f' => some (Char.ofNat 12)
  | 'n' => some '\n'
  | 'r' => some '\r'
  | 't' => some '\t'
  | _ => none

/-- Combined value of four hex digits. -/
def hexVal4 (a b c d : Char) : Option Nat :=
  (hexVal a).bind fun x =>
    (hexVal b).bind fun y =>
      (hexVal c).bind fun z =>
        (hexVal d).map fun w => ((x * 16 + y) * 16 + z) * 16 + w

/-- Parse the body of a JSON string literal (after the opening quote),
returning the decoded characters and the input after the closing quote. -/
def parseStrBody : List Char → Option (List Char × List Char)
  | [] => none
  | '\"' :: rest => some ([], rest)
  | '\\' :: 'u' :: h1 :: h2 :: h3 :: h4 :: rest =>
    (hexVal4 h1 h2 h3 h4).bind fun n =>
      (parseStrBody rest).map fun p => (Char.ofNat n :: p.1, p.2)
  | '\\' :: e :: rest =>
    (escChar e).bind fun c =>
      (parseStrBody rest).map fun p => (c :: p.1, p.2)
  | c :: rest =>
    if c.toNat < 32 then none
    else (parseStrBody rest).map fun p => (c :: p.1, p.2)

/-- Greedily split off decimal digits. -/
def takeDigits : List Char → (List Char × List Char)
  | [] => ([], [])
  | c :: cs =>
    if c.isDigit then ((c :: (takeDigits cs).1), (takeDigits cs).2)
    else ([], c :: cs)

/-- Numeric value of a digit list (most significant first). -/
def digitsToNat : List Char → Nat → Nat
  | [], acc => acc
  | c :: cs, acc => digitsToNat cs (acc * 10 + (c.toNat - '0'.toNat))

/-- Does the input start with a minus sign? -/
def negSign (l : List Char) : Bool := decide (l.headD ' ' = '-')

/-- Does the input start with a plus sign? -/
def plusSign (l : List Char) : Bool := decide (l.headD ' ' = '+')

/-- Split an optional leading exponent sign. -/
def expSign (l : List Char) : Bool × List Char :=
  if negSign l then (true, l.tail)
  else if plusSign l then (false, l.tail)
  else (false, l)

/-- Apply a decimal exponent to the signed mantissa. -/
def applyExp (eneg : Bool) (withSign : ℚ) (e : Nat) : ℚ :=
  if eneg then withSign / ((10 : ℚ) ^ e) else withSign * ((10 : ℚ) ^ e)

/-- Parse the digits of an exponent and apply it to the signed mantissa. -/
def parseExp (withSign : ℚ) (rest : List Char) : Option (ℚ × List Char) :=
  if (expSign rest).2.isEmpty then none
  else if ((expSign rest).2.headD ' ').isDigit then
    some (applyExp (expSign rest).1 withSign
            (digitsToNat (takeDigits (expSign rest).2).1 0),
          (takeDigits (expSign rest).2).2)
  else none

/-- Parse the optional exponent of a JSON number and finish. -/
def parseNumTail (neg : Bool) (mantissa : ℚ) (cs : List Char) : Option (ℚ × List Char) :=
  if (cs.headD ' ' == 'e') || (cs.headD ' ' == 'E') then
    parseExp (if neg then -mantissa else mantissa) cs.tail
  else some ((if neg then -mantissa else mantissa), cs)

/-- Parse the optional fraction and exponent of a JSON number following the
integer part. -/
def parseNumFrac (neg : Bool) (intPart : ℚ) (cs2 : List Char) : Option (ℚ × List Char) :=
  if cs2.headD ' ' == '.' then
    if cs2.tail.isEmpty then none
    else if (cs2.tail.headD ' ').isDigit then
      parseNumTail neg
        (intPart +
          (digitsToNat (takeDigits cs2.tail).1 0 : ℚ) / ((10 : ℚ) ^ (takeDigits cs2.tail).1.length))
        (takeDigits cs2.tail).2
    else none
  else parseNumTail neg intPart cs2

/-- The number's characters after an optional leading minus sign. -/
def numStart (cs : List Char) : List Char :=
  if negSign cs then cs.tail else cs

/-- Parse a JSON number (integer part with no leading zeros, optional
fraction, optional exponent) into a rational. -/
def parseNumber (cs : List Char) : Option (ℚ × List Char) :=
  if (numStart cs).isEmpty then none
  else if !((numStart cs).headD ' ').isDigit then none
  -- JSON forbids leading zeros: after a '0' the integer part is complete.
  else if (numStart cs).headD ' ' == '0' then
    parseNumFrac (negSign cs) 0 (numStart cs).tail
  else
    parseNumFrac (negSign cs) (digitsToNat (takeDigits (numStart cs)).1 0 : ℚ)
      (takeDigits (numStart cs)).2

mutual

/-- Parse one JSON value. -/
def parseVal : Nat → List Char → Option (JVal × List Char)
  | 0, _ => none
  | fuel + 1, cs =>
    if (skipWs cs).headD ' ' == '{' then
      if (skipWs (skipWs cs).tail).headD ' ' == '}' then
        some (.obj [], (skipWs (skipWs cs).tail).tail)
      else
        (parseMembers fuel (skipWs (skipWs cs).tail)).map fun p => (JVal.obj p.1, p.2)
    else if (skipWs cs).headD ' ' == '[' then
      if (skipWs (skipWs cs).tail).headD ' ' == ']' then
        some (.arr [], (skipWs (skipWs cs).tail).tail)
      else
        (parseItems fuel (skipWs (skipWs cs).tail)).map fun p => (JVal.arr p.1, p.2)
    else if (skipWs cs).headD ' ' == '\"' then
      (parseStrBody (skipWs cs).tail).map fun p => (JVal.str p.1, p.2)
    else if listIsPrefixOf "true".data (skipWs cs) then
      some (.bool true, (skipWs cs).drop 4)
    else if listIsPrefixOf "false".data (skipWs cs) then
      some (.bool false, (skipWs cs).drop 5)
    else if listIsPrefixOf "null".data (skipWs cs) then
      some (.null, (skipWs cs).drop 4)
    else
      (parseNumber (skipWs cs)).map fun p => (JVal.num p.1, p.2)

/-- Parse the (non-empty) comma-separated items of an array, up to and
including the closing bracket. -/
def parseItems : Nat → List Char → Option (List JVal × List Char)
  | 0, _ => none
  | fuel + 1, cs =>
    (parseVal fuel cs).bind fun p =>
      if (skipWs p.2).headD ' ' == ',' then
        (parseItems fuel (skipWs p.2).tail).map fun q => (p.1 :: q.1, q.2)
      else if (skipWs p.2).headD ' ' == ']' then some ([p.1], (skipWs p.2).tail)
      else none

/-- Parse the (non-empty) comma-separated members of an object, up to and
including the closing brace. -/
def parseMembers : Nat → List Char → Option (List (List Char × JVal) × List Char)
  | 0, _ => none
  | fuel + 1, cs =>
    if (skipWs cs).headD ' ' == '\"' then
      (parseStrBody (skipWs cs).tail).bind fun kp =>
        if (skipWs kp.2).headD ' ' == ':' then
          (parseVal fuel (skipWs kp.2).tail).bind fun vp =>
            if (skipWs vp.2).headD ' ' == ',' then
              (parseMembers fuel (skipWs vp.2).tail).map fun mp =>
                ((kp.1, vp.1) :: mp.1, mp.2)
            else if (skipWs vp.2).headD ' ' == '}' then
              some ([(kp.1, vp.1)], (skipWs vp.2).tail)
            else none
        else none
    else none

end

/-- The model of `json.loads`: parse a complete JSON document, allowing
surrounding whitespace only. -/
def jloads (cs : List Char) : Option JVal :=
  match parseVal (2 * cs.length + 4) cs with
  | some (v, rest) => if skipWs rest = [] then some v else none
  | none => none

/-! ### A size measure dominating the sanitizer's recursion

`mu` bounds the recursion depth of `clean_garmin_data`; crucially, a JSON
value parsed out of a string is `mu`-smaller than the string, because every
output node consumes at least one input character. -/

mutual

/-- Size of a JSON value, with strings weighted by their length. -/
def mu : JVal → Nat
  | .null => 1
  | .bool _ => 1
  | .num _ => 1
  | .str s => s.length + 1
  | .arr xs => 1 + muL xs
  | .obj kvs => 1 + muO kvs

/-- Size of a list of JSON values. -/
def muL : List JVal → Nat
  | [] => 0
  | x :: xs => 1 + mu x + muL xs

/-- Size of a list of object members. -/
def muO : List (List Char × JVal) → Nat
  | [] => 0
  | (k, v) :: kvs => k.length + 2 + mu v + muO kvs

end

theorem mu_pos : ∀ x : JVal, 1 ≤ mu x := by
  intro x
  cases x <;> simp [mu] <;> omega

theorem mu_lt_of_mem_arr {x : JVal} {xs : List JVal} (h : x ∈ xs) :
    mu x < mu (.arr xs) := by
  have : mu x + 1 ≤ muL xs := by
    induction xs with
    | nil => cases h
    | cons y ys ih =>
      rcases List.mem_cons.1 h with rfl | h2
      · simp [muL]; omega
      · have := ih h2
        simp [muL]; omega
  simp [mu]; omega

theorem mu_lt_of_mem_obj {k : List Char} {v : JVal}
    {kvs : List (List Char × JVal)} (h : (k, v) ∈ kvs) :
    mu v < mu (.obj kvs) := by
  have : mu v + 1 ≤ muO kvs := by
    induction kvs with
    | nil => cases h
    | cons p ps ih =>
      rcases List.mem_cons.1 h with rfl | h2
      · simp [muO]; omega
      · have := ih h2
        rcases p with ⟨k', v'⟩
        simp [muO]; omega
  simp [mu]; omega

theorem parseStrBody_size :
    ∀ cs s r, parseStrBody cs = some (s, r) → s.length + r.length < cs.length := by
  intro cs
  induction cs using parseStrBody.induct with
  | case1 =>
    intro s r h
    simp [parseStrBody] at h
  | case2 rest =>
    intro s r h
    simp [parseStrBody] at h
    obtain ⟨rfl, rfl⟩ := h
    simp
  | case3 h1 h2 h3 h4 rest ih =>
    intro s r h
    simp only [parseStrBody, Option.bind_eq_some, Option.map_eq_some'] at h
    obtain ⟨n, _, ⟨s0, r0⟩, hrec, heq⟩ := h
    rw [Prod.ext_iff] at heq
    obtain ⟨rfl, rfl⟩ := heq
    have := ih s0 r0 hrec
    simp only [List.length_cons]
    omega
  | case4 e rest hne ih =>
    intro s r h
    simp only [parseStrBody, Option.bind_eq_some, Option.map_eq_some'] at h
    obtain ⟨c, _, ⟨s0, r0⟩, hrec, heq⟩ := h
    rw [Prod.ext_iff] at heq
    obtain ⟨rfl, rfl⟩ := heq
    have := ih s0 r0 hrec
    simp only [List.length_cons]
    omega
  | case5 c rest hq hu he hlt =>
    intro s r h
    simp [parseStrBody, hlt] at h
  | case6 c rest hq hu he hge ih =>
    intro s r h
    simp only [parseStrBody, if_neg hge, Option.map_eq_some'] at h
    obtain ⟨⟨s0, r0⟩, hrec, heq⟩ := h
    rw [Prod.ext_iff] at heq
    obtain ⟨rfl, rfl⟩ := heq
    have := ih s0 r0 hrec
    simp only [List.length_cons]
    omega

theorem takeDigits_len : ∀ cs : List Char,
    (takeDigits cs).1.length + (takeDigits cs).2.length = cs.length := by
  intro cs
  induction cs with
  | nil => simp [takeDigits]
  | cons c cs ih =>
    by_cases h : c.isDigit <;> simp [takeDigits, h] <;> omega

theorem takeDigits_snd_lt (l : List Char) (hne : ¬l.isEmpty)
    (h : (l.headD ' ').isDigit) :
    (takeDigits l).2.length < l.length := by
  rcases l with _ | ⟨c, cs⟩
  · simp at hne
  · simp only [List.headD_cons] at h
    have := takeDigits_len cs
    simp [takeDigits, h]
    omega

theorem expSign_len : ∀ l : List Char, (expSign l).2.length ≤ l.length := by
  intro l
  unfold expSign
  split
  · simp [List.length_tail]
  · split <;> simp [List.length_tail]

theorem parseExp_size : ∀ w rest q r, parseExp w rest = some (q, r) →
    r.length ≤ rest.length := by
  intro w rest q r h
  unfold parseExp at h
  split at h
  · simp at h
  · split at h
    · simp only [Option.some.injEq, Prod.mk.injEq] at h
      obtain ⟨-, rfl⟩ := h
      have h1 := takeDigits_len (expSign rest).2
      have h2 := expSign_len rest
      omega
    · simp at h

theorem parseNumTail_size : ∀ neg m cs q r, parseNumTail neg m cs = some (q, r) →
    r.length ≤ cs.length := by
  intro neg m cs q r h
  unfold parseNumTail at h
  split at h
  · have h1 := parseExp_size _ cs.tail q r h
    have h2 : cs.tail.length ≤ cs.length := by
      simp [List.length_tail]
    omega
  · simp only [Option.some.injEq, Prod.mk.injEq] at h
    obtain ⟨-, rfl⟩ := h
    exact le_rfl

theorem parseNumFrac_size : ∀ neg ip cs2 q r, parseNumFrac neg ip cs2 = some (q, r) →
    r.length ≤ cs2.length := by
  intro neg ip cs2 q r h
  unfold parseNumFrac at h
  split at h
  · split at h
    · simp at h
    · split at h
      · have h1 := parseNumTail_size _ _ _ _ _ h
        have h2 := takeDigits_len cs2.tail
        have h3 : cs2.tail.length ≤ cs2.length := by
          simp [List.length_tail]
        omega
      · simp at h
  · exact parseNumTail_size _ _ _ _ _ h

theorem numStart_len (cs : List Char) : (numStart cs).length ≤ cs.length := by
  unfold numStart
  split <;> simp [List.length_tail]

theorem parseNumber_size : ∀ cs q r, parseNumber cs = some (q, r) →
    r.length < cs.length := by
  intro cs q r h
  unfold parseNumber at h
  have htail := numStart_len cs
  split at h
  · simp at h
  · split at h
    · simp at h
    · rename_i hne hdig
      have hlen : 1 ≤ (numStart cs).length := by
        rcases hl : numStart cs with _ | ⟨c, rest⟩
        · rw [hl] at hne
          simp at hne
        · simp
      split at h
      · have := parseNumFrac_size _ _ _ _ _ h
        have h3 : (numStart cs).tail.length + 1 = (numStart cs).length := by
          simp [List.length_tail]
          omega
        omega
      · have h1 := parseNumFrac_size _ _ _ _ _ h
        have h2 : (takeDigits (numStart cs)).2.length < (numStart cs).length :=
          takeDigits_snd_lt _ (by simpa using hne) (by simpa using hdig)
        omega

theorem listIsPrefixOf_length : ∀ n h : List Char, listIsPrefixOf n h = true →
    n.length ≤ h.length := by
  intro n
  induction n with
  | nil => simp
  | cons c cs ih =>
    intro h hp
    rcases h with _ | ⟨d, ds⟩
    · simp [listIsPrefixOf] at hp
    · simp only [listIsPrefixOf, Bool.and_eq_true] at hp
      have := ih ds hp.2
      simp
      omega

theorem headD_char_len {l : List Char} {c : Char}
    (h : (l.headD ' ' == c) = true) (hc : c ≠ ' ') :
    l.length = l.tail.length + 1 := by
  rcases l with _ | ⟨d, ds⟩
  · simp at h
    exact absurd h.symm hc
  · simp

theorem parse_size : ∀ fuel,
    (∀ cs v r, parseVal fuel cs = some (v, r) → mu v + r.length ≤ cs.length) ∧
    (∀ cs xs r, parseItems fuel cs = some (xs, r) → muL xs + r.length ≤ cs.length) ∧
    (∀ cs kvs r, parseMembers fuel cs = some (kvs, r) → muO kvs + r.length ≤ cs.length) := by
  intro fuel
  induction fuel with
  | zero =>
    refine ⟨?_, ?_, ?_⟩ <;> intro cs a r h <;>
      simp [parseVal, parseItems, parseMembers] at h
  | succ f ih =>
    obtain ⟨ihV, ihI, ihM⟩ := ih
    have hsk : ∀ l : List Char, (skipWs l).length ≤ l.length := skipWs_length_le
    refine ⟨?_, ?_, ?_⟩
    · -- parseVal
      intro cs v r h
      simp only [parseVal] at h
      split at h
      · -- object
        have e1 : (skipWs cs).length = (skipWs cs).tail.length + 1 :=
          headD_char_len (by assumption) (by decide)
        split at h
        · have e2 : (skipWs (skipWs cs).tail).length
              = (skipWs (skipWs cs).tail).tail.length + 1 :=
            headD_char_len (by assumption) (by decide)
          simp only [Option.some.injEq, Prod.mk.injEq] at h
          obtain ⟨rfl, rfl⟩ := h
          have l1 := hsk cs
          have l2 := hsk (skipWs cs).tail
          simp only [mu, muO]
          omega
        · simp only [Option.map_eq_some'] at h
          obtain ⟨⟨kvs, r0⟩, hm, heq⟩ := h
          rw [Prod.ext_iff] at heq
          dsimp only at heq
          obtain ⟨rfl, rfl⟩ := heq
          have := ihM _ _ _ hm
          have l1 := hsk cs
          have l2 := hsk (skipWs cs).tail
          simp only [mu]
          omega
      · split at h
        · -- array
          have e1 : (skipWs cs).length = (skipWs cs).tail.length + 1 :=
            headD_char_len (by assumption) (by decide)
          split at h
          · have e2 : (skipWs (skipWs cs).tail).length
                = (skipWs (skipWs cs).tail).tail.length + 1 :=
              headD_char_len (by assumption) (by decide)
            simp only [Option.some.injEq, Prod.mk.injEq] at h
            obtain ⟨rfl, rfl⟩ := h
            have l1 := hsk cs
            have l2 := hsk (skipWs cs).tail
            simp only [mu, muL]
            omega
          · simp only [Option.map_eq_some'] at h
            obtain ⟨⟨xs, r0⟩, hm, heq⟩ := h
            rw [Prod.ext_iff] at heq
            dsimp only at heq
            obtain ⟨rfl, rfl⟩ := heq
            have := ihI _ _ _ hm
            have l1 := hsk cs
            have l2 := hsk (skipWs cs).tail
            simp only [mu]
            omega
        · split at h
          · -- string
            have e1 : (skipWs cs).length = (skipWs cs).tail.length + 1 :=
              headD_char_len (by assumption) (by decide)
            simp only [Option.map_eq_some'] at h
            obtain ⟨⟨s, r0⟩, hm, heq⟩ := h
            rw [Prod.ext_iff] at heq
            dsimp only at heq
            obtain ⟨rfl, rfl⟩ := heq
            have := parseStrBody_size _ _ _ hm
            have l1 := hsk cs
            simp only [mu]
            omega
          · split at h
            · -- true
              have hpl : ("true".data).length ≤ (skipWs cs).length :=
                listIsPrefixOf_length _ _ (by assumption)
              simp only [Option.some.injEq, Prod.mk.injEq] at h
              obtain ⟨rfl, rfl⟩ := h
              have l1 := hsk cs
              simp only [mu, List.length_drop]
              simp at hpl
              omega
            · split at h
              · -- false
                have hpl : ("false".data).length ≤ (skipWs cs).length :=
                  listIsPrefixOf_length _ _ (by assumption)
                simp only [Option.some.injEq, Prod.mk.injEq] at h
                obtain ⟨rfl, rfl⟩ := h
                have l1 := hsk cs
                simp only [mu, List.length_drop]
                simp at hpl
                omega
              · split at h
                · -- null
                  have hpl : ("null".data).length ≤ (skipWs cs).length :=
                    listIsPrefixOf_length _ _ (by assumption)
                  simp only [Option.some.injEq, Prod.mk.injEq] at h
                  obtain ⟨rfl, rfl⟩ := h
                  have l1 := hsk cs
                  simp only [mu, List.length_drop]
                  simp at hpl
                  omega
                · -- number
                  simp only [Option.map_eq_some'] at h
                  obtain ⟨⟨q, r0⟩, hm, heq⟩ := h
                  rw [Prod.ext_iff] at heq
                  dsimp only at heq
                  obtain ⟨rfl, rfl⟩ := heq
                  have := parseNumber_size _ _ _ hm
                  have l1 := hsk cs
                  simp only [mu]
                  omega
    · -- parseItems
      intro cs xs r h
      simp only [parseItems, Option.bind_eq_some] at h
      obtain ⟨⟨v, r1⟩, hV, h2⟩ := h
      dsimp only at h2
      have hv := ihV _ _ _ hV
      have l1 := hsk r1
      split at h2
      · have e1 : (skipWs r1).length = (skipWs r1).tail.length + 1 :=
          headD_char_len (by assumption) (by decide)
        simp only [Option.map_eq_some'] at h2
        obtain ⟨⟨xs0, r3⟩, hI, heq⟩ := h2
        rw [Prod.ext_iff] at heq
        dsimp only at heq
        obtain ⟨rfl, rfl⟩ := heq
        have := ihI _ _ _ hI
        simp only [muL]
        omega
      · split at h2
        · have e1 : (skipWs r1).length = (skipWs r1).tail.length + 1 :=
            headD_char_len (by assumption) (by decide)
          simp only [Option.some.injEq, Prod.mk.injEq] at h2
          obtain ⟨rfl, rfl⟩ := h2
          simp only [muL]
          omega
        · simp at h2
    · -- parseMembers
      intro cs kvs r h
      simp only [parseMembers] at h
      split at h
      · have e1 : (skipWs cs).length = (skipWs cs).tail.length + 1 :=
          headD_char_len (by assumption) (by decide)
        simp only [Option.bind_eq_some] at h
        obtain ⟨⟨k, r1⟩, hK, h2⟩ := h
        dsimp only at h2
        have hk := parseStrBody_size _ _ _ hK
        have l0 := hsk cs
        split at h2
        · have e2 : (skipWs r1).length = (skipWs r1).tail.length + 1 :=
            headD_char_len (by assumption) (by decide)
          simp only [Option.bind_eq_some] at h2
          obtain ⟨⟨v, r3⟩, hV, h3⟩ := h2
          dsimp only at h3
          have hv := ihV _ _ _ hV
          have l1 := hsk r1
          have l2 := hsk r3
          split at h3
          · have e3 : (skipWs r3).length = (skipWs r3).tail.length + 1 :=
              headD_char_len (by assumption) (by decide)
            simp only [Option.map_eq_some'] at h3
            obtain ⟨⟨kvs0, r5⟩, hM, heq⟩ := h3
            rw [Prod.ext_iff] at heq
            dsimp only at heq
            obtain ⟨rfl, rfl⟩ := heq
            have := ihM _ _ _ hM
            simp only [muO]
            omega
          · split at h3
            · have e3 : (skipWs r3).length = (skipWs r3).tail.length + 1 :=
                headD_char_len (by assumption) (by decide)
              simp only [Option.some.injEq, Prod.mk.injEq] at h3
              obtain ⟨rfl, rfl⟩ := h3
              simp only [muO]
              omega
            · simp at h3
        · simp at h2
      · simp at h

/-- A successfully parsed document is `mu`-bounded by the input length. -/
theorem jloads_mu {cs : List Char} {v : JVal} (h : jloads cs = some v) :
    mu v ≤ cs.length := by
  unfold jloads at h
  rcases hp : parseVal (2 * cs.length + 4) cs with _ | ⟨v0, rest⟩
  · rw [hp] at h
    simp at h
  · rw [hp] at h
    have := (parse_size (2 * cs.length + 4)).1 cs v0 rest hp
    dsimp only at h
    split at h
    · simp at h
      subst h
      omega
    · simp at h

/-! ### The sanitizer `clean_garmin_data`

Fuel-indexed version: the fuel is only a structural device; any fuel at least
`mu x` computes the same result (`cleanF_congr`), and `mu x` itself is used as
the bound. The body mirrors `clean_garmin_data` in `main.py`: for a dict, keep
entries passing the raw test, recursively clean, then re-test the cleaned
value; an emptied dict becomes `None`. For a list, clean every element and
filter. For a string, attempt JSON recovery after the doubled-quote fix.
Other scalars pass through. -/
def cleanF : Nat → JVal → JVal
  | 0, x => x
  | f + 1, x =>
    match x with
    | .null => .null
    | .bool b => .bool b
    | .num q => .num q
    | .str s =>
      match jloads (repDD s) with
      | some v => cleanF f v
      | none => .str s
    | .arr xs => .arr ((xs.map (cleanF f)).filter keepItem)
    | .obj kvs =>
      if (kvs.filterMap (fun p =>
            if rawKeep p.1 p.2 && keepItem (cleanF f p.2)
            then some (p.1, cleanF f p.2) else none)).isEmpty
      then .null
      else .obj (kvs.filterMap (fun p =>
            if rawKeep p.1 p.2 && keepItem (cleanF f p.2)
            then some (p.1, cleanF f p.2) else none))

/-- The sanitizer, `clean_garmin_data` from `main.py`. -/
def clean_garmin_data (x : JVal) : JVal := cleanF (mu x) x

/-- The per-entry action of the sanitizer on a dict entry. -/
def cleanEntry (p : List Char × JVal) : Option (List Char × JVal) :=
  if rawKeep p.1 p.2 && keepItem (clean_garmin_data p.2)
  then some (p.1, clean_garmin_data p.2) else none

theorem cleanF_congr : ∀ n f g (x : JVal), mu x ≤ n → mu x ≤ f → mu x ≤ g →
    cleanF f x = cleanF g x := by
  intro n
  induction n with
  | zero =>
    intro f g x hn
    have := mu_pos x
    omega
  | succ n ih =>
    intro f g x hn hf hg
    have hx1 := mu_pos x
    match f, g with
    | 0, _ => omega
    | _ + 1, 0 => omega
    | f + 1, g + 1 =>
      cases x with
      | null => simp [cleanF]
      | bool b => simp [cleanF]
      | num q => simp [cleanF]
      | str s =>
        simp only [cleanF]
        rcases hj : jloads (repDD s) with _ | v
        · rfl
        · have hv : mu v ≤ s.length := by
            have h1 := jloads_mu hj
            have h2 := repDD_length_le s
            omega
          have hs : s.length + 1 ≤ n + 1 := by simpa [mu] using hn
          have hsf : s.length + 1 ≤ f + 1 := by simpa [mu] using hf
          have hsg : s.length + 1 ≤ g + 1 := by simpa [mu] using hg
          exact ih f g v (by omega) (by omega) (by omega)
      | arr xs =>
        simp only [cleanF, JVal.arr.injEq]
        congr 1
        apply List.map_congr_left
        intro y hy
        have := mu_lt_of_mem_arr hy
        simp only [mu] at this hn hf hg
        exact ih f g y (by omega) (by omega) (by omega)
      | obj kvs =>
        have hmap : kvs.filterMap (fun p =>
              if rawKeep p.1 p.2 && keepItem (cleanF f p.2)
              then some (p.1, cleanF f p.2) else none)
            = kvs.filterMap (fun p =>
              if rawKeep p.1 p.2 && keepItem (cleanF g p.2)
              then some (p.1, cleanF g p.2) else none) := by
          apply List.filterMap_congr
          intro p hp
          rcases p with ⟨k, v⟩
          have := mu_lt_of_mem_obj hp
          simp only [mu] at this hn hf hg
          rw [ih f g v (by omega) (by omega) (by omega)]
        simp only [cleanF, hmap]

theorem cleanF_clean {f : Nat} {x : JVal} (h : mu x ≤ f) :
    cleanF f x = clean_garmin_data x :=
  cleanF_congr (max f (mu x)) f (mu x) x (le_max_right f (mu x)) h le_rfl

theorem clean_null_eq : clean_garmin_data .null = .null := rfl

theorem clean_bool_eq (b : Bool) : clean_garmin_data (.bool b) = .bool b := rfl

theorem clean_num_eq (q : ℚ) : clean_garmin_data (.num q) = .num q := rfl

theorem clean_str_eq (s : List Char) : clean_garmin_data (.str s) =
    (match jloads (repDD s) with
     | some v => clean_garmin_data v
     | none => .str s) := by
  unfold clean_garmin_data
  rw [show mu (JVal.str s) = s.length + 1 from rfl]
  simp only [cleanF]
  rcases hj : jloads (repDD s) with _ | v
  · rfl
  · have hv : mu v ≤ s.length := by
      have h1 := jloads_mu hj
      have h2 := repDD_length_le s
      omega
    exact cleanF_clean hv

theorem clean_arr_eq (xs : List JVal) : clean_garmin_data (.arr xs) =
    .arr ((xs.map clean_garmin_data).filter keepItem) := by
  unfold clean_garmin_data
  rw [show mu (JVal.arr xs) = muL xs + 1 from by simp [mu]; omega]
  simp only [cleanF, JVal.arr.injEq]
  congr 1
  apply List.map_congr_left
  intro y hy
  have h1 := mu_lt_of_mem_arr hy
  simp only [mu] at h1
  exact cleanF_clean (by omega)

theorem clean_obj_eq (kvs : List (List Char × JVal)) : clean_garmin_data (.obj kvs) =
    (if (kvs.filterMap cleanEntry).isEmpty then .null
     else .obj (kvs.filterMap cleanEntry)) := by
  unfold clean_garmin_data
  rw [show mu (JVal.obj kvs) = muO kvs + 1 from by simp [mu]; omega]
  simp only [cleanF]
  have hmap : kvs.filterMap (fun p =>
        if rawKeep p.1 p.2 && keepItem (cleanF (muO kvs) p.2)
        then some (p.1, cleanF (muO kvs) p.2) else none)
      = kvs.filterMap cleanEntry := by
    apply List.filterMap_congr
    intro p hp
    have h1 := mu_lt_of_mem_obj (k := p.1) (v := p.2) (by simpa using hp)
    simp only [mu] at h1
    rw [cleanEntry, cleanF_clean (by omega)]
  rw [hmap]


theorem rawKeep_eq (k : List Char) (v : JVal) :
    rawKeep k v = (keepItem v && keyAllowed k) := by
  simp [rawKeep, keepItem, Bool.and_assoc]

theorem mem_clean_arr {y : JVal} {xs : List JVal}
    (h : y ∈ (xs.map clean_garmin_data).filter keepItem) :
    (∃ x ∈ xs, y = clean_garmin_data x) ∧ keepItem y = true := by
  rw [List.mem_filter] at h
  obtain ⟨h1, h2⟩ := h
  rw [List.mem_map] at h1
  obtain ⟨x, hx, rfl⟩ := h1
  exact ⟨⟨x, hx, rfl⟩, h2⟩

theorem mem_cleanEntry {kvs : List (List Char × JVal)} {k : List Char} {v : JVal}
    (h : (k, v) ∈ kvs.filterMap cleanEntry) :
    ∃ v0, (k, v0) ∈ kvs ∧ v = clean_garmin_data v0 ∧ keepItem v = true ∧
      keyAllowed k = true := by
  rw [List.mem_filterMap] at h
  obtain ⟨⟨k0, v0⟩, hmem, he⟩ := h
  unfold cleanEntry at he
  split at he
  · rename_i hcond
    simp only [Option.some.injEq, Prod.mk.injEq] at he
    obtain ⟨rfl, rfl⟩ := he
    simp only [Bool.and_eq_true, rawKeep_eq] at hcond
    exact ⟨v0, hmem, rfl, hcond.2, hcond.1.2⟩
  · simp at he

theorem filterMap_eq_self_of {α : Type} (f : α → Option α) (l : List α)
    (h : ∀ a ∈ l, f a = some a) : l.filterMap f = l := by
  induction l with
  | nil => simp
  | cons a l ih =>
    rw [List.filterMap_cons, h a (by simp)]
    rw [ih (fun b hb => h b (by simp [hb]))]

theorem clean_idem_aux : ∀ n, ∀ x, mu x ≤ n →
    clean_garmin_data (clean_garmin_data x) = clean_garmin_data x := by
  intro n
  induction n using Nat.strong_induction_on with
  | _ n ih =>
    intro x hx
    cases x with
    | null => simp [clean_null_eq]
    | bool b => simp [clean_bool_eq]
    | num q => simp [clean_num_eq]
    | str s =>
      rw [clean_str_eq]
      rcases hj : jloads (repDD s) with _ | v
      · rw [clean_str_eq, hj]
      · have hv : mu v < mu (JVal.str s) := by
          have h1 := jloads_mu hj
          have h2 := repDD_length_le s
          simp [mu]
          omega
        have := mu_pos v
        exact ih (mu v) (by omega) v le_rfl
    | arr xs =>
      rw [clean_arr_eq, clean_arr_eq]
      have hfix : ∀ y ∈ (xs.map clean_garmin_data).filter keepItem,
          clean_garmin_data y = y := by
        intro y hy
        obtain ⟨⟨x0, hx0, rfl⟩, -⟩ := mem_clean_arr hy
        have hlt := mu_lt_of_mem_arr hx0
        have := mu_pos x0
        exact ih (mu x0) (by omega) x0 le_rfl
      have hmap : ((xs.map clean_garmin_data).filter keepItem).map clean_garmin_data
          = (xs.map clean_garmin_data).filter keepItem := by
        rw [List.map_congr_left hfix]
        simp
      rw [hmap, List.filter_eq_self.mpr]
      intro y hy
      exact (mem_clean_arr hy).2
    | obj kvs =>
      rw [clean_obj_eq]
      rcases he : (kvs.filterMap cleanEntry).isEmpty with _ | _
      · -- nonempty: the cleaned object is a fixed point
        simp only [Bool.false_eq_true, if_false]
        rw [clean_obj_eq]
        have hfix : (kvs.filterMap cleanEntry).filterMap cleanEntry
            = kvs.filterMap cleanEntry := by
          apply filterMap_eq_self_of
          intro p hp
          rcases p with ⟨k, v⟩
          obtain ⟨v0, hv0mem, rfl, hkeep, hkey⟩ := mem_cleanEntry hp
          have hlt := mu_lt_of_mem_obj hv0mem
          have := mu_pos v0
          have hcc : clean_garmin_data (clean_garmin_data v0) = clean_garmin_data v0 :=
            ih (mu v0) (by omega) v0 le_rfl
          unfold cleanEntry
          rw [hcc]
          simp only [rawKeep_eq, hkeep, hkey, Bool.and_self, Bool.true_and, if_pos]
        rw [hfix, he]
        simp
      · simp [clean_null_eq]

theorem clean_obj_of_empty {kvs : List (List Char × JVal)}
    (h : (kvs.filterMap cleanEntry).isEmpty = true) :
    clean_garmin_data (.obj kvs) = .null := by
  rw [clean_obj_eq, if_pos h]

theorem clean_arr_is_arr (xs : List JVal) :
    ∃ ys, clean_garmin_data (.arr xs) = .arr ys :=
  ⟨_, clean_arr_eq xs⟩

/-- Sanitizer outputs in which no mapping key, at any depth, is denylisted or
contains the forbidden substring. -/
inductive GoodKeys : JVal → Prop where
  | null : GoodKeys .null
  | bool (b : Bool) : GoodKeys (.bool b)
  | num (q : ℚ) : GoodKeys (.num q)
  | str (s : List Char) : GoodKeys (.str s)
  | arr {xs : List JVal} : (∀ x ∈ xs, GoodKeys x) → GoodKeys (.arr xs)
  | obj {kvs : List (List Char × JVal)} :
      (∀ p ∈ kvs, keyAllowed p.1 = true) →
      (∀ p ∈ kvs, GoodKeys p.2) → GoodKeys (.obj kvs)

theorem clean_goodKeys_aux : ∀ n, ∀ x, mu x ≤ n →
    GoodKeys (clean_garmin_data x) := by
  intro n
  induction n using Nat.strong_induction_on with
  | _ n ih =>
    intro x hx
    cases x with
    | null => exact clean_null_eq ▸ GoodKeys.null
    | bool b => exact clean_bool_eq b ▸ GoodKeys.bool b
    | num q => exact clean_num_eq q ▸ GoodKeys.num q
    | str s =>
      rw [clean_str_eq]
      rcases hj : jloads (repDD s) with _ | v
      · exact GoodKeys.str s
      · have hv : mu v < mu (JVal.str s) := by
          have h1 := jloads_mu hj
          have h2 := repDD_length_le s
          simp [mu]
          omega
        have := mu_pos v
        exact ih (mu v) (by omega) v le_rfl
    | arr xs =>
      rw [clean_arr_eq]
      refine GoodKeys.arr ?_
      intro y hy
      obtain ⟨⟨x0, hx0, rfl⟩, -⟩ := mem_clean_arr hy
      have hlt := mu_lt_of_mem_arr hx0
      have := mu_pos x0
      exact ih (mu x0) (by omega) x0 le_rfl
    | obj kvs =>
      rw [clean_obj_eq]
      split
      · exact GoodKeys.null
      · refine GoodKeys.obj ?_ ?_
        · intro p hp
          rcases p with ⟨k, v⟩
          obtain ⟨v0, hv0mem, rfl, -, hkey⟩ := mem_cleanEntry hp
          exact hkey
        · intro p hp
          rcases p with ⟨k, v⟩
          obtain ⟨v0, hv0mem, rfl, -, hkey⟩ := mem_cleanEntry hp
          have hlt := mu_lt_of_mem_obj hv0mem
          have := mu_pos v0
          exact ih (mu v0) (by omega) v0 le_rfl


/-- C4: Sanitizer idempotence: for every JSON-like input, applying
`clean_garmin_data` twice yields the same result as applying it once. -/
theorem clean_garmin_data_idempotent (x : JVal) :
    clean_garmin_data (clean_garmin_data x) = clean_garmin_data x :=
  clean_idem_aux (mu x) x le_rfl

/-- C8: Denylist invariant: every sanitizer output satisfies `GoodKeys` — at
every nesting depth no mapping key is in the denylist (ownerId, userProfilePk,
permissionId, userRoles, equipmentTypeId) and none contains the substring
"endConditionCompare"; in particular a mapping with `"ownerId": 123` next to a
valid key loses exactly the `ownerId` entry. -/
theorem clean_denylist_invariant :
    (∀ x : JVal, GoodKeys (clean_garmin_data x)) ∧
    clean_garmin_data (.obj [("ownerId".data, .num 123), ("steps".data, .num 10)])
      = .obj [("steps".data, .num 10)] :=
  ⟨fun x => clean_goodKeys_aux (mu x) x le_rfl, by rfl⟩

/-- C5: Zero-vs-empty asymmetry: a mapping whose keys are all dropped becomes
absent (`null`), e.g. `{"a": 0}`; a sequence whose elements are all filtered
out stays an empty sequence, e.g. `[0, 0] ↦ []`; in general a sequence is
never collapsed to absent while an emptied mapping always is. -/
theorem clean_zero_vs_empty_asymmetry :
    clean_garmin_data (.obj [("a".data, .num 0)]) = .null ∧
    clean_garmin_data (.arr [.num 0, .num 0]) = .arr [] ∧
    (∀ xs : List JVal, ∃ ys, clean_garmin_data (.arr xs) = .arr ys) ∧
    (∀ kvs : List (List Char × JVal), (kvs.filterMap cleanEntry).isEmpty = true →
      clean_garmin_data (.obj kvs) = .null) :=
  ⟨rfl, rfl, clean_arr_is_arr, fun _ h => clean_obj_of_empty h⟩

/-- C5 witness: the conditional part of the asymmetry theorem applied at the
concrete emptied mapping input. -/
theorem clean_zero_vs_empty_asymmetry_witness :
    ((["b".data, "c".data].map (fun k => (k, JVal.num 0))).filterMap cleanEntry).isEmpty
      = true ∧
    clean_garmin_data (.obj (["b".data, "c".data].map (fun k => (k, JVal.num 0)))) = .null :=
  ⟨by rfl, clean_zero_vs_empty_asymmetry.2.2.2 _ (by rfl)⟩

/-- C6 counterexample: sanitizing the mapping whose only entry is the boolean
`False` yields `null` — the entry is dropped (Python compares `False == 0`),
so the sanitized mapping does not retain the key, contrary to the claim. -/
theorem clean_bool_false_dropped_cex :
    clean_garmin_data (.obj [("a".data, .bool false)]) = .null ∧
    ∀ kvs : List (List Char × JVal), JVal.null ≠ JVal.obj kvs :=
  ⟨rfl, fun _ h => JVal.noConfusion h⟩

/-- C6 amended: boolean scalars pass through unchanged where no container
filter applies (`clean_garmin_data (bool b) = bool b`); every `True` value
in a mapping (under a key the denylist admits) and every `True` element of a
sequence is retained in the sanitized container; but a `False` value is
dropped from mappings and sequences exactly as the numeric zero is, because
the `!= 0` filter treats `False` as `0`. -/
theorem clean_bool_passthrough_amended :
    (∀ b, clean_garmin_data (.bool b) = .bool b) ∧
    (∀ (kvs : List (List Char × JVal)) (k : List Char),
        (k, JVal.bool true) ∈ kvs → keyAllowed k = true →
        ∃ ckvs, clean_garmin_data (.obj kvs) = .obj ckvs ∧
          (k, JVal.bool true) ∈ ckvs) ∧
    (∀ xs : List JVal, JVal.bool true ∈ xs →
        ∃ ys, clean_garmin_data (.arr xs) = .arr ys ∧ JVal.bool true ∈ ys) ∧
    (∀ (k : List Char) rest, clean_garmin_data (.obj ((k, .bool false) :: rest))
        = clean_garmin_data (.obj rest)) ∧
    (∀ xs, clean_garmin_data (.arr (.bool false :: xs))
        = clean_garmin_data (.arr xs)) ∧
    clean_garmin_data (.obj [("a".data, .bool true)]) = .obj [("a".data, .bool true)] := by
  refine ⟨clean_bool_eq, ?_, ?_, ?_, ?_, by rfl⟩
  · intro kvs k hmem hallow
    have hce : cleanEntry (k, JVal.bool true) = some (k, JVal.bool true) := by
      simp [cleanEntry, clean_bool_eq, rawKeep, keepItem, JVal.isNull,
        JVal.pyZero, hallow]
    have hmem2 : (k, JVal.bool true) ∈ kvs.filterMap cleanEntry := by
      rw [List.mem_filterMap]
      exact ⟨(k, JVal.bool true), hmem, hce⟩
    refine ⟨kvs.filterMap cleanEntry, ?_, hmem2⟩
    rw [clean_obj_eq, if_neg]
    intro h
    rw [List.isEmpty_iff] at h
    rw [h] at hmem2
    simp at hmem2
  · intro xs hmem
    refine ⟨(xs.map clean_garmin_data).filter keepItem, clean_arr_eq xs, ?_⟩
    rw [List.mem_filter]
    constructor
    · rw [List.mem_map]
      exact ⟨JVal.bool true, hmem, rfl⟩
    · rfl
  · intro k rest
    rw [clean_obj_eq, clean_obj_eq]
    have h : cleanEntry (k, .bool false) = none := by
      simp [cleanEntry, rawKeep, JVal.pyZero, JVal.isNull]
    rw [List.filterMap_cons, h]
  · intro xs
    rw [clean_arr_eq, clean_arr_eq]
    have h : keepItem (JVal.bool false) = false := rfl
    simp [clean_bool_eq, h]

/-- C7: Embedded-JSON recovery: a string is sanitized by replacing each
doubled double-quote with a single one and attempting a JSON parse; on
success the parsed structure is recursively sanitized, on failure the
original string (not the quote-replaced one) is returned; in particular the
doubled-quote-escaped object string parses to a structured mapping. -/
theorem clean_embedded_json_recovery :
    (∀ s v, jloads (repDD s) = some v →
      clean_garmin_data (.str s) = clean_garmin_data v) ∧
    (∀ s, jloads (repDD s) = none → clean_garmin_data (.str s) = .str s) ∧
    clean_garmin_data (.str "\x7b\"\"x\"\":1\x7d".data) = .obj [("x".data, .num 1)] ∧
    clean_garmin_data (.str "a\"\"b".data) = .str "a\"\"b".data ∧
    repDD "a\"\"b".data ≠ "a\"\"b".data := by
  refine ⟨?_, ?_, by rfl, by rfl, by decide⟩
  · intro s v h
    rw [clean_str_eq, h]
  · intro s h
    rw [clean_str_eq, h]

/-- C7 witness: the two conditional parts of the recovery theorem applied at
concrete parsing and non-parsing strings. -/
theorem clean_embedded_json_recovery_witness :
    (jloads (repDD "[1]".data) = some (.arr [.num 1]) ∧
      clean_garmin_data (.str "[1]".data) = clean_garmin_data (.arr [.num 1])) ∧
    (jloads (repDD "abc".data) = none ∧
      clean_garmin_data (.str "abc".data) = .str "abc".data) :=
  ⟨⟨by rfl, clean_embedded_json_recovery.1 _ _ (by rfl)⟩,
   ⟨by rfl, clean_embedded_json_recovery.2.1 _ (by rfl)⟩⟩


/-! ### `get_dates_in_range`

Python `date` objects are modelled by their proleptic-Gregorian ordinals
(`date.toordinal`: 1 = 0001-01-01), on which `timedelta(days=1)` is `+ 1` and
comparison is `≤`. `date_fromisoformat` and `date_isoformat` are the
conversions (the latter uses CPython's `_ord2ymd` algorithm). -/

/-- Gregorian leap year. -/
def isLeap (y : Nat) : Bool := y % 4 == 0 && (y % 100 != 0 || y % 400 == 0)

/-- Days in a month of a year. -/
def daysInMonth (y m : Nat) : Nat :=
  if m == 2 then (if isLeap y then 29 else 28)
  else if m == 4 || m == 6 || m == 9 || m == 11 then 30
  else 31

/-- Days before the first of month `m` within year `y`. -/
def daysBeforeMonth (y m : Nat) : Nat :=
  ((List.range (m - 1)).map (fun i => daysInMonth y (i + 1))).sum

/-- `date(y, m, d).toordinal()`. -/
def toOrdinal (y m d : Nat) : Nat :=
  365 * (y - 1) + (y - 1) / 4 - (y - 1) / 100 + (y - 1) / 400 + daysBeforeMonth y m + d

/-- `date.fromisoformat` on a strict `YYYY-MM-DD` string, as an ordinal;
`none` models the `ValueError` raised on malformed or invalid dates. -/
def date_fromisoformat (s : String) : Option Nat :=
  match s.data with
  | [y1, y2, y3, y4, '-', m1, m2, '-', d1, d2] =>
    if ([y1, y2, y3, y4, m1, m2, d1, d2].all Char.isDigit) then
      let y := digitsToNat [y1, y2, y3, y4] 0
      let m := digitsToNat [m1, m2] 0
      let d := digitsToNat [d1, d2] 0
      if 1 ≤ y ∧ 1 ≤ m ∧ m ≤ 12 ∧ 1 ≤ d ∧ d ≤ daysInMonth y m then
        some (toOrdinal y m d)
      else none
    else none
  | _ => none

/-- Walk the months of a year to locate a (1-based) day of year. -/
def monthScan : Nat → Nat → Nat → Nat → Nat × Nat × Nat
  | 0, y, doy, m => (y, m, doy)
  | fuel + 1, y, doy, m =>
    if doy ≤ daysInMonth y m then (y, m, doy)
    else monthScan fuel y (doy - daysInMonth y m) (m + 1)

/-- CPython's `_ord2ymd`: ordinal back to (year, month, day). -/
def ord2ymd (n0 : Nat) : Nat × Nat × Nat :=
  let n := n0 - 1
  let n400 := n / 146097
  let r1 := n % 146097
  let n100 := r1 / 36524
  let r2 := r1 % 36524
  let n4 := r2 / 1461
  let r3 := r2 % 1461
  let n1 := r3 / 365
  let r4 := r3 % 365
  let year := n400 * 400 + n100 * 100 + n4 * 4 + n1 + 1
  if n1 = 4 ∨ n100 = 4 then (year - 1, 12, 31)
  else monthScan 11 year (r4 + 1) 1

/-- Left-pad a number's decimal digits with zeros to width `w`. -/
def pad (w n : Nat) : List Char :=
  List.replicate (w - (Nat.toDigits 10 n).length) '0' ++ Nat.toDigits 10 n

/-- `date.isoformat` of an ordinal. -/
def date_isoformat (ord : Nat) : String :=
  ⟨pad 4 (ord2ymd ord).1 ++ '-' :: pad 2 (ord2ymd ord).2.1 ++ '-' :: pad 2 (ord2ymd ord).2.2⟩

/-- The `while current_date <= end_date` loop of `get_dates_in_range`; the
fuel is exactly the number of iterations. -/
def datesLoopF : Nat → Nat → Nat → List String
  | 0, _, _ => []
  | f + 1, a, b =>
    if a ≤ b then date_isoformat a :: datesLoopF f (a + 1) b else []

/-- `get_dates_in_range` from `main.py`; `none` models the `ValueError`
escaping when a date string does not parse. -/
def get_dates_in_range (s e : String) : Option (List String) :=
  match date_fromisoformat s, date_fromisoformat e with
  | some a, some b => some (datesLoopF (b + 1 - a) a b)
  | _, _ => none

theorem datesLoopF_eq : ∀ f a b, b + 1 - a ≤ f →
    datesLoopF f a b = (List.range' a (b + 1 - a)).map date_isoformat := by
  intro f
  induction f with
  | zero =>
    intro a b h
    have h0 : b + 1 - a = 0 := by omega
    rw [h0]
    simp [datesLoopF]
  | succ f ih =>
    intro a b h
    by_cases hab : a ≤ b
    · have h1 : b + 1 - a = (b + 1 - (a + 1)) + 1 := by omega
      rw [datesLoopF, if_pos hab, h1, List.range'_succ, List.map_cons,
        ih (a + 1) b (by omega)]
    · have h0 : b + 1 - a = 0 := by omega
      rw [datesLoopF, if_neg hab, h0]
      simp

/-- C9: Date range inclusivity: when both endpoints parse and start ≤ end,
the generated sequence is exactly the dates of the ordinals from start to end
inclusive (in ascending order), its length is (end − start) + 1 ≥ 1; and for
2024-01-01 .. 2024-01-03 it is exactly those three dates. -/
theorem get_dates_in_range_inclusive :
    (∀ s e a b, date_fromisoformat s = some a → date_fromisoformat e = some b →
      a ≤ b →
      get_dates_in_range s e = some ((List.range' a (b + 1 - a)).map date_isoformat) ∧
      ((List.range' a (b + 1 - a)).map date_isoformat).length = b - a + 1 ∧
      1 ≤ ((List.range' a (b + 1 - a)).map date_isoformat).length ∧
      List.Pairwise (· < ·) (List.range' a (b + 1 - a))) ∧
    get_dates_in_range "2024-01-01" "2024-01-03"
      = some ["2024-01-01", "2024-01-02", "2024-01-03"] := by
  constructor
  · intro s e a b h1 h2 hab
    refine ⟨?_, ?_, ?_, ?_⟩
    · unfold get_dates_in_range
      rw [h1, h2]
      dsimp only
      rw [datesLoopF_eq (b + 1 - a) a b le_rfl]
    · rw [List.length_map, List.length_range']
      omega
    · rw [List.length_map, List.length_range']
      omega
    · exact List.pairwise_lt_range' a (b + 1 - a)
  · decide

/-- C9 witness: the inclusivity theorem applied at the concrete pair
2024-01-01 (ordinal 738886) and 2024-01-03 (ordinal 738888). -/
theorem get_dates_in_range_inclusive_witness :
    date_fromisoformat "2024-01-01" = some 738886 ∧
    date_fromisoformat "2024-01-03" = some 738888 ∧
    get_dates_in_range "2024-01-01" "2024-01-03"
      = some ((List.range' 738886 (738888 + 1 - 738886)).map date_isoformat) :=
  ⟨by decide, by decide,
    (get_dates_in_range_inclusive.1 "2024-01-01" "2024-01-03" 738886 738888
      (by decide) (by decide) (by norm_num)).1⟩


/-! ### The MFA state store and authentication handlers

`MFA_STATE_STORE` is a process-wide dict from challenge tokens to
`{"state": ..., "ts": time.time()}`; it is modelled as an ordered association
list, `time.time()` values as rationals. The Provider's `login`/`resume_login`
calls are opaque parameters. A raised `HTTPException(400)` inside a handler's
`try` block is caught by that handler's own `except Exception` clause
(FastAPI's `HTTPException` subclasses `Exception`) and re-raised as a 500
whose detail wraps `str(e)` = "400: <detail>". -/

/-- One MFA continuation: the Provider's opaque `client_state` and the
`time.time()` timestamp at creation. -/
structure MfaEntry where
  state : String
  ts : ℚ
deriving DecidableEq

/-- The `MFA_STATE_STORE` dict. -/
abbrev MfaStore := List (String × MfaEntry)

/-- `MFA_TTL_SECONDS = 5 * 60`. -/
def MFA_TTL_SECONDS : ℚ := 5 * 60

/-- `_cleanup_mfa_cache` from `main.py`: drop every entry whose age exceeds
the TTL at `now`. -/
def _cleanup_mfa_cache (now : ℚ) (store : MfaStore) : MfaStore :=
  store.filter (fun p => !(decide (now - p.2.ts > MFA_TTL_SECONDS)))

/-- Python dict assignment `store[k] = e` (replace in place or append). -/
def storeSet (store : MfaStore) (k : String) (e : MfaEntry) : MfaStore :=
  if (store.lookup k).isSome then
    store.map (fun p => if p.1 = k then (k, e) else p)
  else store ++ [(k, e)]

/-- Python `store.pop(k, None)`. -/
def storePop (store : MfaStore) (k : String) : Option MfaEntry × MfaStore :=
  match store.lookup k with
  | some e => (some e, store.eraseP (fun p => p.1 == k))
  | none => (none, store)

/-- An HTTP response as the framework emits it: a 200 JSON body, or an error
status with a detail string. -/
inductive HttpResp where
  | ok (body : JVal)
  | err (status : Nat) (detail : String)

/-- What the Provider's `garmin.login()` can do in the login handler. -/
inductive LoginResult where
  | success (tokens : String)
  | needsMfa (state : String)
  | failure

/-- `garmin_login` from `main.py`, as a function of the Provider's login
outcome, the generated `uuid4` hex and the current time: on an MFA challenge
it stores the continuation under the fresh token and then runs the cleanup
sweep. -/
def garmin_login (res : LoginResult) (mfa_id : String) (now : ℚ)
    (store : MfaStore) : HttpResp × MfaStore :=
  match res with
  | .needsMfa st =>
    (.ok (.obj [("status".data, .str "needs_mfa".data),
                ("client_state".data, .str mfa_id.data)]),
     _cleanup_mfa_cache now (storeSet store mfa_id ⟨st, now⟩))
  | .success tokens =>
    (.ok (.obj [("status".data, .str "success".data),
                ("tokens".data, .str tokens.data)]), store)
  | .failure => (.err 500 "Garmin login error", store)

/-- Python falsiness of an optional string (`not x`). -/
def optFalsy : Option String → Bool
  | none => true
  | some s => s.isEmpty

/-- `garmin_resume_login` from `main.py`: missing body fields and an unknown
or expired token raise `HTTPException(400, ...)`, which the handler's own
`except Exception` converts to a 500 wrapping the 400 detail; the stored
entry is popped (removed) on lookup before the Provider resume is tried. -/
def garmin_resume_login (client_state mfa_code user_id : Option String)
    (resume : String → String → Except Unit String) (store : MfaStore) :
    HttpResp × MfaStore :=
  if optFalsy client_state || optFalsy mfa_code || optFalsy user_id then
    (.err 500 "An unexpected error occurred: 400: Missing client_state, mfa_code, or user_id.",
     store)
  else
    match storePop store (client_state.getD "") with
    | (none, store1) =>
      (.err 500 "An unexpected error occurred: 400: Invalid or expired mfa_token", store1)
    | (some item, store1) =>
      match resume item.state (mfa_code.getD "") with
      | .ok tokens =>
        (.ok (.obj [("status".data, .str "success".data),
                    ("tokens".data, .str tokens.data)]), store1)
      | .error _ => (.err 500 "Garmin MFA error", store1)

theorem mem_eraseP_of_pred_false {α : Type} {p : α → Bool} {a : α} :
    ∀ {l : List α}, a ∈ l → p a = false → a ∈ l.eraseP p := by
  intro l
  induction l with
  | nil => intro h; cases h
  | cons b bs ih =>
    intro hmem hpa
    rcases List.mem_cons.1 hmem with rfl | h2
    · rw [List.eraseP_cons, hpa]
      simp
    · rw [List.eraseP_cons]
      by_cases hb : p b
      · simp [hb, h2]
      · simp only [Bool.not_eq_true] at hb
        rw [hb]
        simp
        right
        exact ih h2 hpa

/-- C10: MFA TTL sweep: the cleanup sweep keeps exactly the entries whose age
at sweep time is at most `MFA_TTL_SECONDS` (expired ones are removed even if
never resumed); a login attempt that hits an MFA challenge stores the new
entry and runs the sweep; no other path touches other entries — a successful
or failed login leaves the store unchanged, and a resume removes at most the
entry of the token it looked up. -/
theorem mfa_ttl_sweep :
    (∀ (now : ℚ) (store : MfaStore) (t : String) (e : MfaEntry),
      (t, e) ∈ _cleanup_mfa_cache now store ↔
        (t, e) ∈ store ∧ now - e.ts ≤ MFA_TTL_SECONDS) ∧
    (∀ st mfa_id now store,
      (garmin_login (.needsMfa st) mfa_id now store).2
        = _cleanup_mfa_cache now (storeSet store mfa_id ⟨st, now⟩)) ∧
    (∀ tokens mfa_id now store,
      (garmin_login (.success tokens) mfa_id now store).2 = store) ∧
    (∀ mfa_id now store, (garmin_login .failure mfa_id now store).2 = store) ∧
    (∀ cs code uid resume store (t : String) (e : MfaEntry),
      (t, e) ∈ store → t ≠ cs.getD "" →
      (t, e) ∈ (garmin_resume_login cs code uid resume store).2) := by
  refine ⟨?_, fun _ _ _ _ => rfl, fun _ _ _ _ => rfl, fun _ _ _ => rfl, ?_⟩
  · intro now store t e
    rw [_cleanup_mfa_cache, List.mem_filter]
    constructor
    · rintro ⟨h1, h2⟩
      simp at h2
      exact ⟨h1, by linarith⟩
    · rintro ⟨h1, h2⟩
      refine ⟨h1, ?_⟩
      simp
      linarith
  · intro cs code uid resume store t e hmem hne
    unfold garmin_resume_login
    split
    · exact hmem
    · unfold storePop
      rcases hl : store.lookup (cs.getD "") with _ | item
      · simp only
        exact hmem
      · have herase : (t, e) ∈ store.eraseP (fun p => p.1 == cs.getD "") :=
          mem_eraseP_of_pred_false hmem (by simp [hne])
        simp only
        rcases resume item.state (code.getD "") with _ | tokens
        · exact herase
        · exact herase

/-- C10 witness: the retention part of the sweep theorem at a concrete store:
a fresh entry under another token survives a resume that consumes token
"a". -/
theorem mfa_ttl_sweep_witness :
    ("b", MfaEntry.mk "s2" 10) ∈
      (garmin_resume_login (some "a") (some "123456") (some "u")
        (fun _ _ => .ok "T")
        [("a", MfaEntry.mk "s1" 0), ("b", MfaEntry.mk "s2" 10)]).2 :=
  mfa_ttl_sweep.2.2.2.2 (some "a") (some "123456") (some "u")
    (fun _ _ => .ok "T") [("a", MfaEntry.mk "s1" 0), ("b", MfaEntry.mk "s2" 10)]
    "b" (MfaEntry.mk "s2" 10) (by simp) (by decide)

/-- A Provider resume call that always succeeds, for concrete evaluations. -/
def resumeOkDemo : String → String → Except Unit String := fun _ _ => .ok "TOKENS"

/-- C2 (code-bug evidence): the entry is consumed by the first successful
resume (the store is empty afterwards), and the second resume with the same
token finds nothing — but the deliberately raised 400 "Invalid or expired
mfa_token" surfaces as a 500 wrapping the 400 detail, because the handler's
own `except Exception` catches the `HTTPException`; the missing-field 400 is
wrapped the same way. -/
theorem resume_login_consumes_then_500 :
    (garmin_resume_login (some "tok") (some "123456") (some "u") resumeOkDemo
        [("tok", MfaEntry.mk "st" 0)]).1
      = .ok (.obj [("status".data, .str "success".data),
                   ("tokens".data, .str "TOKENS".data)]) ∧
    (garmin_resume_login (some "tok") (some "123456") (some "u") resumeOkDemo
        [("tok", MfaEntry.mk "st" 0)]).2 = [] ∧
    (garmin_resume_login (some "tok") (some "123456") (some "u") resumeOkDemo
        ((garmin_resume_login (some "tok") (some "123456") (some "u") resumeOkDemo
          [("tok", MfaEntry.mk "st" 0)]).2)).1
      = .err 500 "An unexpected error occurred: 400: Invalid or expired mfa_token" ∧
    (garmin_resume_login none (some "123456") (some "u") resumeOkDemo []).1
      = .err 500 "An unexpected error occurred: 400: Missing client_state, mfa_code, or user_id." :=
  ⟨rfl, rfl, rfl, rfl⟩


/-! ### The Provider and the activities/workouts detail expansion

The Provider is the opaque `garminconnect.Garmin` client: one field per
method the service calls, each returning a JSON-like payload or raising
(`Except.error`). Dates are passed as their ISO strings. -/

/-- The upstream Garmin client as used by the handlers. -/
structure Provider where
  login : Except Unit Unit
  get_lactate_threshold : Except Unit JVal
  get_race_predictions : Except Unit JVal
  get_pregnancy_summary : Except Unit JVal
  get_user_summary : String → Except Unit JVal
  get_floors : String → Except Unit JVal
  get_fitnessage_data : String → Except Unit JVal
  get_heart_rates : String → Except Unit JVal
  get_sleep_data : String → Except Unit JVal
  get_all_day_stress : String → Except Unit JVal
  get_respiration_data : String → Except Unit JVal
  get_spo2_data : String → Except Unit JVal
  get_intensity_minutes_data : String → Except Unit JVal
  get_training_readiness : String → Except Unit JVal
  get_training_status : String → Except Unit JVal
  get_max_metrics : String → Except Unit JVal
  get_hrv_data : String → Except Unit JVal
  get_endurance_score : String → String → Except Unit JVal
  get_hill_score : String → String → Except Unit JVal
  get_blood_pressure : String → String → Except Unit JVal
  get_body_battery : String → String → Except Unit JVal
  get_menstrual_data_for_date : String → Except Unit JVal
  get_menstrual_calendar_data : String → String → Except Unit JVal
  get_body_composition : String → String → Except Unit JVal
  get_activities_by_date : String → String → Option String → Except Unit JVal
  get_activity_details : JVal → Except Unit JVal
  get_activity_splits : JVal → Except Unit JVal
  get_activity_weather : JVal → Except Unit JVal
  get_activity_hr_in_timezones : JVal → Except Unit JVal
  get_activity_exercise_sets : JVal → Except Unit JVal
  get_activity_gear : JVal → Except Unit JVal
  get_workouts : Except Unit JVal
  get_workout_by_id : JVal → Except Unit JVal

/-- Python `v.get(k)`: `None` default for a dict, `AttributeError` (raise)
otherwise. -/
def pyGet (v : JVal) (k : List Char) : Except Unit JVal :=
  match v with
  | .obj kvs => .ok ((kvs.lookup k).getD .null)
  | _ => .error ()

/-- Python `v.get(k, dflt)`. -/
def pyGetD (v : JVal) (k : List Char) (dflt : JVal) : Except Unit JVal :=
  match v with
  | .obj kvs => .ok ((kvs.lookup k).getD dflt)
  | _ => .error ()

/-- Python `v[k]`: `KeyError` on a missing key, `TypeError` otherwise. -/
def pyIndex (v : JVal) (k : List Char) : Except Unit JVal :=
  match v with
  | .obj kvs =>
    match kvs.lookup k with
    | some x => .ok x
    | none => .error ()
  | _ => .error ()

/-- Python `v[k] = x` on a dict (replace in place or append). -/
def pySetKey (v : JVal) (k : List Char) (x : JVal) : Except Unit JVal :=
  match v with
  | .obj kvs =>
    if (kvs.lookup k).isSome then
      .ok (.obj (kvs.map (fun p => if p.1 = k then (k, x) else p)))
    else .ok (.obj (kvs ++ [(k, x)]))
  | _ => .error ()

/-- `grams_to_kg` from `main.py`. -/
def grams_to_kg (g : ℚ) : ℚ := g / 1000

/-- `meters_to_km` from `main.py`. -/
def meters_to_km (m : ℚ) : ℚ := m / 1000

/-- `seconds_to_minutes` from `main.py`. -/
def seconds_to_minutes (s : ℚ) : ℚ := s / 60

/-- `safe_convert` from `main.py`: `None` passes through; numbers (and
booleans, numeric in Python) are converted; other types raise a `TypeError`
in the conversion arithmetic. -/
def safe_convert (v : JVal) (f : ℚ → ℚ) : Except Unit JVal :=
  match v with
  | .null => .ok .null
  | .num q => .ok (.num (f q))
  | .bool b => .ok (.num (f (if b then 1 else 0)))
  | _ => .error ()

/-- The body of `convert_activities_units` for one activity. -/
def convert_activity (a : JVal) : Except Unit JVal := do
  let d1 ← pyGet a "distance".data
  let c1 ← safe_convert d1 meters_to_km
  let a1 ← pySetKey a "distance".data c1
  let d2 ← pyGet a1 "duration".data
  let c2 ← safe_convert d2 seconds_to_minutes
  let a2 ← pySetKey a1 "duration".data c2
  let d3 ← pyGet a2 "elapsedDuration".data
  let c3 ← safe_convert d3 seconds_to_minutes
  let a3 ← pySetKey a2 "elapsedDuration".data c3
  let d4 ← pyGet a3 "movingDuration".data
  let c4 ← safe_convert d4 seconds_to_minutes
  pySetKey a3 "movingDuration".data c4

/-- `convert_activities_units` from `main.py`. -/
def convert_activities_units (acts : List JVal) : Except Unit (List JVal) :=
  acts.mapM convert_activity

/-- Python `str.title()` on a character list (alphabetic runs capitalised). -/
def pyTitleGo : Bool → List Char → List Char
  | _, [] => []
  | prev, c :: cs =>
    (if c.isAlpha then (if prev then c.toLower else c.toUpper) else c)
      :: pyTitleGo c.isAlpha cs

/-- Python `s.title()`. -/
def pyTitle (s : List Char) : List Char := pyTitleGo false s

/-- The `activityName` enrichment of lines 480-482: when the fetched activity
has no truthy name but has a truthy `activityType.typeKey`, derive the name
from the type key by replacing underscores with spaces and title-casing. -/
def fix_activity_name (a : JVal) : Except Unit JVal := do
  let an ← pyGet a "activityName".data
  if an.pyTruthy then pure a
  else
    let at1 ← pyGetD a "activityType".data (.obj [])
    let tk ← pyGet at1 "typeKey".data
    if tk.pyTruthy then
      let at2 ← pyIndex a "activityType".data
      let tk2 ← pyIndex at2 "typeKey".data
      match tk2 with
      | .str s =>
        pySetKey a "activityName".data
          (.str (pyTitle (s.map (fun c => if c = '_' then ' ' else c))))
      | _ => .error ()
    else pure a

/-- The name-enrichment loop over the fetched activities. -/
def fix_activity_names (acts : List JVal) : Except Unit (List JVal) :=
  acts.mapM fix_activity_name

/-- A hex digit character. -/
def hexDigit (n : Nat) : Char :=
  if n < 10 then Char.ofNat (48 + n) else Char.ofNat (87 + n)

/-- `json.dumps` escaping of one character (default `ensure_ascii=True`). -/
def escapeChar (c : Char) : List Char :=
  if c = '\"' then ['\\', '\"']
  else if c = '\\' then ['\\', '\\']
  else if c = '\n' then ['\\', 'n']
  else if c = '\r' then ['\\', 'r']
  else if c = '\t' then ['\\', 't']
  else if c.toNat < 32 ∨ 126 < c.toNat then
    ['\\', 'u', hexDigit (c.toNat / 4096 % 16), hexDigit (c.toNat / 256 % 16),
     hexDigit (c.toNat / 16 % 16), hexDigit (c.toNat % 16)]
  else [c]

/-- `json.dumps` of a string body. -/
def escapeStr (s : List Char) : List Char :=
  s.foldr (fun c acc => escapeChar c ++ acc) []

/-- Decimal rendering of an integer. -/
def intDigits (n : Int) : List Char :=
  (if n < 0 then ['-'] else []) ++ Nat.toDigits 10 n.natAbs

/-- Rendering of a number; non-integral rationals (floats) are rendered as
`num/den`, an injective placeholder for Python's float repr, which no claim
observes. -/
def renderRat (q : ℚ) : List Char :=
  if q.den = 1 then intDigits q.num
  else intDigits q.num ++ '/' :: Nat.toDigits 10 q.den

/-- `json.dumps` with its default separators, fuel-indexed. -/
def jdumpsF : Nat → JVal → List Char
  | 0, _ => []
  | f + 1, v =>
    match v with
    | .null => "null".data
    | .bool true => "true".data
    | .bool false => "false".data
    | .num q => renderRat q
    | .str s => '\"' :: escapeStr s ++ ['\"']
    | .arr xs => '[' :: List.intercalate ", ".data (xs.map (jdumpsF f)) ++ [']']
    | .obj kvs =>
      '{' :: List.intercalate ", ".data
        (kvs.map (fun p => '\"' :: escapeStr p.1 ++ '\"' :: ':' :: ' ' :: jdumpsF f p.2))
        ++ ['}']

/-- `json.dumps` of a JSON value. -/
def jdumps (v : JVal) : List Char := jdumpsF (mu v) v

/-- `json.dumps(clean_garmin_data(d)) if d else None`, the detail fields of
an expanded activity record. -/
def detail_field (d : JVal) : JVal :=
  if d.pyTruthy then .str (jdumps (clean_garmin_data d)) else .null

/-- The six sequential detail fetches for one activity and the record built
from them (lines 491-506); the first raise aborts the whole bundle. -/
def activity_details_bundle (P : Provider) (aid : JVal) (a : JVal) :
    Except Unit JVal := do
  let d1 ← P.get_activity_details aid
  let d2 ← P.get_activity_splits aid
  let d3 ← P.get_activity_weather aid
  let d4 ← P.get_activity_hr_in_timezones aid
  let d5 ← P.get_activity_exercise_sets aid
  let d6 ← P.get_activity_gear aid
  pure (.obj [("activity".data, a),
    ("details".data, detail_field d1),
    ("splits".data, detail_field d2),
    ("weather".data, detail_field d3),
    ("hr_in_timezones".data, detail_field d4),
    ("exercise_sets".data, detail_field d5),
    ("gear".data, detail_field d6)])

/-- One iteration of the expansion loop (lines 488-510): read the activity
id (a raise here escapes the whole handler), then either the full detailed
record or, if any detail fetch raised, the bare base record. -/
def expand_activity (P : Provider) (a : JVal) : Except Unit JVal := do
  let aid ← pyIndex a "activityId".data
  match activity_details_bundle P aid a with
  | .ok r => pure r
  | .error _ => pure (.obj [("activity".data, a)])

/-- The expansion loop over the converted activities. -/
def expand_activities (P : Provider) (acts : List JVal) : Except Unit (List JVal) :=
  acts.mapM (expand_activity P)

/-- The activities part of the handler pipeline: name enrichment, unit
conversion, then detail expansion. -/
def activities_pipeline (P : Provider) (raw : List JVal) : Except Unit (List JVal) := do
  let named ← fix_activity_names raw
  let conv ← convert_activities_units named
  expand_activities P conv


/-- A Provider all of whose calls raise, for concrete instantiations. -/
def noProvider : Provider where
  login := .error ()
  get_lactate_threshold := .error ()
  get_race_predictions := .error ()
  get_pregnancy_summary := .error ()
  get_user_summary := fun _ => .error ()
  get_floors := fun _ => .error ()
  get_fitnessage_data := fun _ => .error ()
  get_heart_rates := fun _ => .error ()
  get_sleep_data := fun _ => .error ()
  get_all_day_stress := fun _ => .error ()
  get_respiration_data := fun _ => .error ()
  get_spo2_data := fun _ => .error ()
  get_intensity_minutes_data := fun _ => .error ()
  get_training_readiness := fun _ => .error ()
  get_training_status := fun _ => .error ()
  get_max_metrics := fun _ => .error ()
  get_hrv_data := fun _ => .error ()
  get_endurance_score := fun _ _ => .error ()
  get_hill_score := fun _ _ => .error ()
  get_blood_pressure := fun _ _ => .error ()
  get_body_battery := fun _ _ => .error ()
  get_menstrual_data_for_date := fun _ => .error ()
  get_menstrual_calendar_data := fun _ _ => .error ()
  get_body_composition := fun _ _ => .error ()
  get_activities_by_date := fun _ _ _ => .error ()
  get_activity_details := fun _ => .error ()
  get_activity_splits := fun _ => .error ()
  get_activity_weather := fun _ => .error ()
  get_activity_hr_in_timezones := fun _ => .error ()
  get_activity_exercise_sets := fun _ => .error ()
  get_activity_gear := fun _ => .error ()
  get_workouts := .error ()
  get_workout_by_id := fun _ => .error ()

/-- C3: Activity detail all-or-nothing: if any of the six detail fetches for
an activity raises — in particular when only the gear fetch, issued last,
raises — the emitted record for that activity is exactly the bare
`{"activity": a}` with no detail keys at all; and the loop's output is the
per-activity map, so records for other activities are exactly what their own
fetches produce, unaffected by this activity's failure. -/
theorem activity_detail_all_or_nothing :
    (∀ (P : Provider) (a aid : JVal) (e : Unit),
      pyIndex a "activityId".data = .ok aid →
      activity_details_bundle P aid a = .error e →
      expand_activity P a = .ok (.obj [("activity".data, a)])) ∧
    (∀ (P : Provider) (a aid : JVal),
      pyIndex a "activityId".data = .ok aid →
      P.get_activity_gear aid = .error () →
      expand_activity P a = .ok (.obj [("activity".data, a)])) ∧
    (∀ (a : JVal) (k : List Char), k ≠ "activity".data →
      ([("activity".data, a)] : List (List Char × JVal)).lookup k = none) ∧
    (∀ (P : Provider) pre post (a : JVal) l1 l2 r,
      expand_activities P pre = .ok l1 → expand_activities P post = .ok l2 →
      expand_activity P a = .ok r →
      expand_activities P (pre ++ a :: post) = .ok (l1 ++ r :: l2)) := by
  have base : ∀ (P : Provider) (a aid : JVal) (e : Unit),
      pyIndex a "activityId".data = .ok aid →
      activity_details_bundle P aid a = .error e →
      expand_activity P a = .ok (.obj [("activity".data, a)]) := by
    intro P a aid e hid hb
    unfold expand_activity
    rw [show (do
        let aid ← pyIndex a "activityId".data
        match activity_details_bundle P aid a with
        | .ok r => pure r
        | .error _ => pure (.obj [("activity".data, a)]) : Except Unit JVal)
      = (pyIndex a "activityId".data).bind (fun aid =>
          match activity_details_bundle P aid a with
          | .ok r => pure r
          | .error _ => pure (.obj [("activity".data, a)])) from rfl]
    rw [hid]
    show (match activity_details_bundle P aid a with
          | .ok r => pure r
          | .error _ => pure (.obj [("activity".data, a)]) : Except Unit JVal)
        = .ok (.obj [("activity".data, a)])
    rw [hb]
    rfl
  refine ⟨base, ?_, ?_, ?_⟩
  · intro P a aid hid hgear
    refine base P a aid () hid ?_
    unfold activity_details_bundle
    rcases h1 : P.get_activity_details aid with e1 | d1
    · rfl
    rcases h2 : P.get_activity_splits aid with e2 | d2
    · rfl
    rcases h3 : P.get_activity_weather aid with e3 | d3
    · rfl
    rcases h4 : P.get_activity_hr_in_timezones aid with e4 | d4
    · rfl
    rcases h5 : P.get_activity_exercise_sets aid with e5 | d5
    · rfl
    rw [hgear]
    rfl
  · intro a k hk
    have : (k == "activity".data) = false := by
      simp [hk]
    simp [List.lookup, this]
  · intro P pre post a l1 l2 r h1 h2 h3
    unfold expand_activities at *
    rw [List.mapM_append]
    rw [h1]
    show _ = Except.ok (l1 ++ r :: l2)
    rw [List.mapM_cons, h3]
    simp only [bind_pure_comp]
    rw [h2]
    rfl

/-- C3 witness: the gear-failure part of the all-or-nothing theorem at a
concrete activity and the always-raising Provider. -/
theorem activity_detail_all_or_nothing_witness :
    pyIndex (.obj [("activityId".data, .num 5)]) "activityId".data = .ok (.num 5) ∧
    noProvider.get_activity_gear (.num 5) = .error () ∧
    expand_activity noProvider (.obj [("activityId".data, .num 5)])
      = .ok (.obj [("activity".data, .obj [("activityId".data, .num 5)])]) :=
  ⟨rfl, rfl,
    activity_detail_all_or_nothing.2.1 noProvider
      (.obj [("activityId".data, .num 5)]) (.num 5) rfl rfl⟩


/-! ### The health-and-wellness orchestrator

`health_data` is a dict from metric name to a list of per-day entry dicts,
initialised with the `ALL_HEALTH_METRICS` keys. Each metric branch is a
guarded, fault-isolated Provider call: `branchKV cond key fetch mk` models
`if cond: try: ... except: log` where `mk` builds the entries appended to
`health_data[key]` (an empty result models both falsy payloads and an
exception raised while building entries, since a raise aborts the branch with
the entries appended so far kept — `collectP` truncates at the raise).
Appending to a key absent from the dict raises `KeyError`, caught by the same
`except`: `appendEntries` returns `none` and the branch leaves the dict
unchanged. -/

/-- `ALL_HEALTH_METRICS` from `main.py`. -/
def ALL_HEALTH_METRICS : List String :=
  ["heart_rates", "sleep", "stress", "respiration", "spo2",
   "intensity_minutes", "training_readiness", "training_status", "max_metrics",
   "hrv", "lactate_threshold", "endurance_score", "hill_score", "race_predictions",
   "blood_pressure", "body_battery", "menstrual_data", "floors", "fitness_age",
   "body_composition"]

/-- The `health_data` dict: metric name to its list of entry dicts. -/
abbrev HD := List (List Char × List JVal)

/-- `health_data = {metric: [] for metric in ALL_HEALTH_METRICS}`. -/
def healthInit : HD := ALL_HEALTH_METRICS.map (fun m => (m.data, ([] : List JVal)))

/-- `health_data[key].append(...)` for a batch of entries; `none` is the
`KeyError` on a missing key. -/
def appendEntries (hd : HD) (k : List Char) (es : List JVal) : Option HD :=
  if (hd.lookup k).isSome then
    some (hd.map (fun p => if p.1 = k then (p.1, p.2 ++ es) else p))
  else none

/-- Append if the key exists, else leave the dict unchanged (the `KeyError`
is caught by the branch's `except`). -/
def applyAppend (hd : HD) (k : List Char) (es : List JVal) : HD :=
  match appendEntries hd k es with
  | some hd2 => hd2
  | none => hd

/-- One guarded fault-isolated metric branch. -/
def branchKV (cond : Bool) (key : List Char) (fetch : Except Unit JVal)
    (mk : JVal → List JVal) (hd : HD) : HD :=
  if cond then
    match fetch with
    | .error _ => hd
    | .ok v => applyAppend hd key (mk v)
  else hd

/-- Collect loop results until the first raise (whose partial results are
kept by the surrounding `except`); the flag records whether a raise
happened. -/
def collectP (g : JVal → List JVal × Bool) : List JVal → List JVal × Bool
  | [] => ([], false)
  | x :: xs =>
    match g x with
    | (es, true) => (es, true)
    | (es, false) =>
      match collectP g xs with
      | (rest, err) => (es ++ rest, err)

/-- Iterating a value as a list; anything else either raises on iteration or
yields elements whose attribute accesses raise at once, so the branch
collects nothing either way. -/
def asList : JVal → Except Unit (List JVal)
  | .arr xs => .ok xs
  | _ => .error ()

/-- A single entry built by a fallible computation; a raise yields no
entry. -/
def mk1 (build : Except Unit JVal) : List JVal :=
  match build with
  | .ok e => [e]
  | .error _ => []

/-- Python `str()` of a scalar, for the blood-pressure f-string; containers
are rendered via `jdumps` as a placeholder for `repr`, which no claim
observes. -/
def pyStr : JVal → List Char
  | .null => "None".data
  | .bool true => "True".data
  | .bool false => "False".data
  | .num q => renderRat q
  | .str s => s
  | v => jdumps v

/-- `prediction.get("raceType") == "FIVE_K"`. -/
def isFiveK : JVal → Bool
  | .str s => decide (s = "FIVE_K".data)
  | _ => false

/-- The lactate-threshold entry (lines 162-169). -/
def mkLactate (sd : String) (v : JVal) : List JVal :=
  if v.pyTruthy then
    mk1 (do
      let sh ← pyGetD v "speed_and_heart_rate".data (.obj [])
      let hr ← pyGet sh "heartRate".data
      pure (.obj [("date".data, .str sd.data), ("lactate_threshold_hr".data, hr)]))
  else []

/-- The race-prediction entries (lines 171-180). -/
def mkRace (sd : String) (v : JVal) : List JVal :=
  if v.pyTruthy then
    match pyGetD v "racePredictionList".data (.arr []) with
    | .error _ => []
    | .ok lv =>
      match asList lv with
      | .error _ => []
      | .ok preds =>
        (collectP (fun p =>
          match pyGet p "raceType".data with
          | .error _ => ([], true)
          | .ok rt =>
            if isFiveK rt then
              match pyGet p "predictedTime".data with
              | .error _ => ([], true)
              | .ok pt =>
                ([.obj [("date".data, .str sd.data), ("race_prediction_5k".data, pt)]],
                 false)
            else ([], false)) preds).1
  else []

/-- The pregnancy-summary entry (lines 182-189); its key is not in
`ALL_HEALTH_METRICS`, so the append raises `KeyError` and the branch is a
no-op on the actual store. -/
def mkPregnancy (sd : String) (v : JVal) : List JVal :=
  if v.pyTruthy then [.obj [("date".data, .str sd.data), ("data".data, v)]] else []

/-- A per-day entry of shape `{date: d, name_i: v.get(field_i)}`. -/
def mkFields (d : String) (fields : List (List Char × List Char)) (v : JVal) :
    List JVal :=
  if v.pyTruthy then
    mk1 (do
      let vals ← fields.mapM (fun f => do
        let x ← pyGet v f.2
        pure (f.1, x))
      pure (.obj (("date".data, JVal.str d.data) :: vals)))
  else []

/-- The HRV entry (lines 323-329): `hrv.get("hrvSummary", {}).get("weeklyAvg")`. -/
def mkHrv (d : String) (v : JVal) : List JVal :=
  if v.pyTruthy then
    mk1 (do
      let sm ← pyGetD v "hrvSummary".data (.obj [])
      let w ← pyGet sm "weeklyAvg".data
      pure (.obj [("date".data, .str d.data), ("average_overnight_hrv".data, w)]))
  else []

/-- The blood-pressure entries (lines 350-374): flatten measurement
summaries to one record per complete measurement. -/
def mkBloodPressure (d : String) (v : JVal) : List JVal :=
  if v.pyTruthy then
    match pyGet v "measurementSummaries".data with
    | .error _ => []
    | .ok ms =>
      if ms.pyTruthy then
        match asList ms with
        | .error _ => []
        | .ok summaries =>
          (collectP (fun summary =>
            match pyGet summary "measurements".data with
            | .error _ => ([], true)
            | .ok m =>
              if m.pyTruthy then
                match asList m with
                | .error _ => ([], true)
                | .ok entries =>
                  collectP (fun bpe =>
                    match pyGet bpe "systolic".data, pyGet bpe "diastolic".data,
                        pyGet bpe "pulse".data with
                    | .ok sys, .ok dia, .ok pul =>
                      if ¬sys.isNull ∧ ¬dia.isNull ∧ ¬pul.isNull then
                        ([.obj [("date".data, .str d.data),
                          ("value".data, .str (pyStr sys ++ '/' :: pyStr dia ++
                            ',' :: ' ' :: pyStr pul ++ " bpm".data))]], false)
                      else ([], false)
                    | _, _, _ => ([], true)) entries
              else ([], false)) summaries).1
      else []
  else []

/-- The body-battery entries (lines 377-391). -/
def mkBodyBattery (d : String) (v : JVal) : List JVal :=
  match v with
  | .arr xs =>
    if xs.isEmpty then []
    else
      (collectP (fun e =>
        match pyGet e "highest".data, pyGet e "lowest".data, pyGet e "atWake".data,
            pyGet e "charged".data, pyGet e "drained".data with
        | .ok h, .ok l, .ok aw, .ok c, .ok dr =>
          ([.obj [("date".data, .str d.data), ("highest".data, h), ("lowest".data, l),
            ("atWake".data, aw), ("charged".data, c), ("drained".data, dr)]], false)
        | _, _, _, _, _ => ([], true)) xs).1
  | _ => []

/-- The menstrual-data entry (lines 394-400). -/
def mkMenstrual (d : String) (v : JVal) : List JVal :=
  if v.pyTruthy then [.obj [("date".data, .str d.data), ("data".data, v)]] else []

/-- The body-composition entries (lines 412-427), using the entry's own
date and converting the weight from grams to kilograms. -/
def mkBodyComposition (v : JVal) : List JVal :=
  if v.pyTruthy then
    match pyGet v "dateWeightList".data with
    | .error _ => []
    | .ok dwl =>
      if dwl.pyTruthy then
        match asList dwl with
        | .error _ => []
        | .ok entries =>
          (collectP (fun e =>
            match (do
              let dt ← pyGet e "date".data
              let w ← pyGet e "weight".data
              let wc ← safe_convert w grams_to_kg
              let bf ← pyGet e "bodyFat".data
              let bmi ← pyGet e "bmi".data
              let bw ← pyGet e "bodyWater".data
              let bm ← pyGet e "boneMass".data
              let mm ← pyGet e "muscleMass".data
              pure (.obj [("date".data, dt), ("weight".data, wc),
                ("body_fat_percentage".data, bf), ("bmi".data, bmi),
                ("body_water_percentage".data, bw), ("bone_mass".data, bm),
                ("muscle_mass".data, mm)]) : Except Unit JVal) with
            | .ok e2 => ([e2], false)
            | .error _ => ([], true)) entries).1
      else []
  else []


/-- One of the five guarded writes of the daily-summary branch; `none` is a
raise (a failed field read or the `KeyError` of the missing key). -/
def summaryStep (cond : Bool) (key : List Char) (build : Except Unit JVal)
    (hd : HD) : Option HD :=
  if cond then
    match build with
    | .error _ => none
    | .ok e => appendEntries hd key [e]
  else some hd

/-- Run the summary writes in order; a raise keeps the updates so far. -/
def summarySeq : List (HD → Option HD) → HD → HD
  | [], hd => hd
  | s :: rest, hd =>
    match s hd with
    | some hd2 => summarySeq rest hd2
    | none => hd

/-- The metric names served by the daily-summary fetch (none of them are
keys of `health_data`, so every write raises `KeyError`). -/
def summaryMetricNames : List String :=
  ["steps", "total_distance", "highly_active_seconds", "active_seconds",
   "sedentary_seconds"]

/-- The daily-summary branch (lines 193-208). -/
def summaryBranch (mtf : List String) (fetch : Except Unit JVal) (d : String)
    (hd : HD) : HD :=
  if summaryMetricNames.any (fun m => mtf.contains m) then
    match fetch with
    | .error _ => hd
    | .ok v =>
      if v.pyTruthy then
        summarySeq [
          summaryStep (mtf.contains "steps") "steps".data (do
            let x ← pyGet v "totalSteps".data
            pure (.obj [("date".data, .str d.data), ("value".data, x)])),
          summaryStep (mtf.contains "total_distance") "total_distance".data (do
            let x ← pyGet v "totalDistance".data
            let c ← safe_convert x meters_to_km
            pure (.obj [("date".data, .str d.data), ("value".data, c)])),
          summaryStep (mtf.contains "highly_active_seconds")
            "highly_active_seconds".data (do
            let x ← pyGet v "highlyActiveSeconds".data
            let c ← safe_convert x seconds_to_minutes
            pure (.obj [("date".data, .str d.data), ("value".data, c)])),
          summaryStep (mtf.contains "active_seconds") "active_seconds".data (do
            let x ← pyGet v "activeSeconds".data
            let c ← safe_convert x seconds_to_minutes
            pure (.obj [("date".data, .str d.data), ("value".data, c)])),
          summaryStep (mtf.contains "sedentary_seconds") "sedentary_seconds".data (do
            let x ← pyGet v "sedentarySeconds".data
            let c ← safe_convert x seconds_to_minutes
            pure (.obj [("date".data, .str d.data), ("value".data, c)]))] hd
      else hd
  else hd

/-- The eleven stress entry fields (lines 251-264). -/
def stressFields : List (List Char × List Char) :=
  [("stress_level".data, "overallStressLevel".data),
   ("stress_duration_total".data, "totalStressDuration".data),
   ("stress_duration_rest".data, "restStressDuration".data),
   ("stress_duration_activity".data, "activityStressDuration".data),
   ("stress_duration_uncategorized".data, "uncategorizedStressDuration".data),
   ("stress_duration_low".data, "lowStressDuration".data),
   ("stress_duration_medium".data, "mediumStressDuration".data),
   ("stress_duration_high".data, "highStressDuration".data),
   ("stress_percentage_low".data, "lowStressPercentage".data),
   ("stress_percentage_medium".data, "mediumStressPercentage".data),
   ("stress_percentage_high".data, "highStressPercentage".data)]

/-- The per-date body of the orchestrator's loop (lines 191-427), in source
order. -/
def perDate (P : Provider) (mtf : List String) (d : String) (hd : HD) : HD :=
  let hd1 := summaryBranch mtf (P.get_user_summary d) d hd
  let hd2 := branchKV (mtf.contains "floors") "floors".data (P.get_floors d)
    (mkFields d [("floors_ascended".data, "totalFloorsAscended".data),
      ("floors_descended".data, "totalFloorsDescended".data)]) hd1
  let hd3 := branchKV (mtf.contains "fitness_age") "fitness_age".data
    (P.get_fitnessage_data d)
    (mkFields d [("fitness_age".data, "fitnessAge".data),
      ("chronological_age".data, "chronologicalAge".data),
      ("achievable_fitness_age".data, "achievableFitnessAge".data)]) hd2
  let hd4 := branchKV (mtf.contains "heart_rates") "heart_rates".data
    (P.get_heart_rates d)
    (mkFields d [("resting_heart_rate".data, "restingHeartRate".data)]) hd3
  let hd5 := branchKV (mtf.contains "sleep") "sleep".data (P.get_sleep_data d)
    (mkFields d [("sleep_duration".data, "durationInSeconds".data)]) hd4
  let hd6 := branchKV (mtf.contains "stress") "stress".data (P.get_all_day_stress d)
    (mkFields d stressFields) hd5
  let hd7 := branchKV (mtf.contains "respiration") "respiration".data
    (P.get_respiration_data d)
    (mkFields d [("average_respiration_rate".data, "avgRespiration".data)]) hd6
  let hd8 := branchKV (mtf.contains "spo2") "spo2".data (P.get_spo2_data d)
    (mkFields d [("average_spo2".data, "avgSpO2".data)]) hd7
  let hd9 := branchKV (mtf.contains "intensity_minutes") "intensity_minutes".data
    (P.get_intensity_minutes_data d)
    (mkFields d [("total_intensity_minutes".data, "total".data)]) hd8
  let hd10 := branchKV (mtf.contains "training_readiness") "training_readiness".data
    (P.get_training_readiness d)
    (mkFields d [("training_readiness_score".data, "score".data)]) hd9
  let hd11 := branchKV (mtf.contains "training_status") "training_status".data
    (P.get_training_status d)
    (mkFields d [("status".data, "status".data)]) hd10
  let hd12 := branchKV (mtf.contains "max_metrics") "max_metrics".data
    (P.get_max_metrics d)
    (mkFields d [("vo2_max".data, "vo2Max".data)]) hd11
  let hd13 := branchKV (mtf.contains "hrv") "hrv".data (P.get_hrv_data d)
    (mkHrv d) hd12
  let hd14 := branchKV (mtf.contains "endurance_score") "endurance_score".data
    (P.get_endurance_score d d)
    (mkFields d [("score".data, "score".data)]) hd13
  let hd15 := branchKV (mtf.contains "hill_score") "hill_score".data
    (P.get_hill_score d d)
    (mkFields d [("overall".data, "overall".data)]) hd14
  let hd16 := branchKV (mtf.contains "blood_pressure") "blood_pressure".data
    (P.get_blood_pressure d d) (mkBloodPressure d) hd15
  let hd17 := branchKV (mtf.contains "body_battery") "body_battery".data
    (P.get_body_battery d d) (mkBodyBattery d) hd16
  let hd18 := branchKV (mtf.contains "menstrual_data") "menstrual_data".data
    (P.get_menstrual_data_for_date d) (mkMenstrual d) hd17
  let hd19 := branchKV (mtf.contains "menstrual_calendar_data")
    "menstrual_calendar_data".data
    (P.get_menstrual_calendar_data d d) (mkMenstrual d) hd18
  branchKV (mtf.contains "body_composition") "body_composition".data
    (P.get_body_composition d d) mkBodyComposition hd19

/-- The date-independent branches of the orchestrator (lines 162-189). -/
def dateIndependent (P : Provider) (mtf : List String) (sd : String) (hd : HD) : HD :=
  let hd1 := branchKV (mtf.contains "lactate_threshold") "lactate_threshold".data
    P.get_lactate_threshold (mkLactate sd) hd
  let hd2 := branchKV (mtf.contains "race_predictions") "race_predictions".data
    P.get_race_predictions (mkRace sd) hd1
  branchKV (mtf.contains "pregnancy_summary") "pregnancy_summary".data
    P.get_pregnancy_summary (mkPregnancy sd) hd2

/-- The fully assembled `health_data` after the orchestrator's loops. -/
def buildHealth (P : Provider) (mtf : List String) (sd : String)
    (dates : List String) : HD :=
  dates.foldl (fun hd d => perDate P mtf d hd) (dateIndependent P mtf sd healthInit)

/-- The body of `POST /data/health_and_wellness`. -/
structure HWRequest where
  user_id : String
  tokens : String
  start_date : String
  end_date : String
  metric_types : List String

/-- `health_data` as the JSON value handed to the sanitizer. -/
def hdToTop (hd : HD) : List (List Char × JVal) :=
  hd.map (fun p => (p.1, JVal.arr p.2))

/-- `get_health_and_wellness` from `main.py`: validation (whose raised 400 is
wrapped into a 500 by the handler's own `except Exception`), Provider login,
date-range generation, metric fan-out with per-metric fault isolation,
sanitization, and the final removal of falsy (emptied) metric kinds. -/
def get_health_and_wellness (P : Provider) (req : HWRequest) : HttpResp :=
  let mtf := if req.metric_types.isEmpty then ALL_HEALTH_METRICS
             else req.metric_types
  if req.user_id.isEmpty || req.tokens.isEmpty || req.start_date.isEmpty
      || req.end_date.isEmpty then
    .err 500 "An unexpected error occurred: 400: Missing user_id, tokens, start_date, or end_date."
  else
    match P.login with
    | .error _ => .err 500 "Garmin API error"
    | .ok _ =>
      match get_dates_in_range req.start_date req.end_date with
      | none => .err 500 "An unexpected error occurred: invalid isoformat string"
      | some dates =>
        match clean_garmin_data (.obj (hdToTop (buildHealth P mtf req.start_date dates))) with
        | .obj ckvs =>
          .ok (.obj [
            ("user_id".data, .str req.user_id.data),
            ("start_date".data, .str req.start_date.data),
            ("end_date".data, .str req.end_date.data),
            ("data".data, .obj (ckvs.filter (fun p => p.2.pyTruthy)))])
        | _ => .err 500 "An unexpected error occurred: cleaned result not a dict"

/-- The `data` mapping of a 200 response. -/
def responseData (r : HttpResp) : List (List Char × JVal) :=
  match r with
  | .ok (.obj kvs) =>
    match kvs.lookup "data".data with
    | some (.obj dkvs) => dkvs
    | _ => []
  | _ => []


/-- The effect of one branch on the entry list stored under its own key. -/
def branchStep (cond : Bool) (fetch : Except Unit JVal) (mk : JVal → List JVal)
    (o : Option (List JVal)) : Option (List JVal) :=
  if cond then
    match fetch with
    | .error _ => o
    | .ok v => o.map (· ++ mk v)
  else o

theorem lookup_mapModify_ne {k k' : List Char} (hne : k' ≠ k) (es : List JVal) :
    ∀ hd : HD,
      (hd.map (fun p => if p.1 = k then (p.1, p.2 ++ es) else p)).lookup k'
        = hd.lookup k' := by
  intro hd
  induction hd with
  | nil => rfl
  | cons p rest ih =>
    rcases p with ⟨k0, l0⟩
    rw [List.map_cons]
    by_cases h0 : k0 = k
    · rw [show (if (k0, l0).1 = k then ((k0, l0).1, (k0, l0).2 ++ es)
          else (k0, l0)) = (k0, l0 ++ es) from by simp [h0]]
      have hb : (k' == k0) = false := by
        simp only [beq_eq_false_iff_ne]
        exact fun h => hne (h.trans h0)
      simp [List.lookup, hb, ih]
    · rw [show (if (k0, l0).1 = k then ((k0, l0).1, (k0, l0).2 ++ es)
          else (k0, l0)) = (k0, l0) from by simp [h0]]
      rcases hbe : (k' == k0) with _ | _
      · simp [List.lookup, hbe, ih]
      · simp [List.lookup, hbe]

theorem lookup_mapModify_eq (k : List Char) (es : List JVal) :
    ∀ hd : HD,
      (hd.map (fun p => if p.1 = k then (p.1, p.2 ++ es) else p)).lookup k
        = (hd.lookup k).map (· ++ es) := by
  intro hd
  induction hd with
  | nil => rfl
  | cons p rest ih =>
    rcases p with ⟨k0, l0⟩
    rw [List.map_cons]
    by_cases h0 : k0 = k
    · rw [show (if (k0, l0).1 = k then ((k0, l0).1, (k0, l0).2 ++ es)
          else (k0, l0)) = (k0, l0 ++ es) from by simp [h0]]
      have hb : (k == k0) = true := by simp [h0]
      simp [List.lookup, hb]
    · rw [show (if (k0, l0).1 = k then ((k0, l0).1, (k0, l0).2 ++ es)
          else (k0, l0)) = (k0, l0) from by simp [h0]]
      have hb : (k == k0) = false := by
        simp only [beq_eq_false_iff_ne]
        exact fun h => h0 h.symm
      simp [List.lookup, hb, ih]

theorem applyAppend_lookup_ne {k k' : List Char} (hne : k' ≠ k) (hd : HD)
    (es : List JVal) : (applyAppend hd k es).lookup k' = hd.lookup k' := by
  unfold applyAppend
  rcases h : appendEntries hd k es with _ | hd2
  · rfl
  · unfold appendEntries at h
    split at h
    · rw [Option.some.injEq] at h
      subst h
      exact lookup_mapModify_ne hne es hd
    · simp at h

theorem applyAppend_lookup_eq (k : List Char) (hd : HD) (es : List JVal) :
    (applyAppend hd k es).lookup k = (hd.lookup k).map (· ++ es) := by
  unfold applyAppend
  rcases h : appendEntries hd k es with _ | hd2
  · unfold appendEntries at h
    split at h
    · simp at h
    · rename_i hns
      dsimp only
      rcases hl : hd.lookup k with _ | l
      · rfl
      · exact absurd (by simp [hl]) hns
  · unfold appendEntries at h
    split at h
    · rw [Option.some.injEq] at h
      subst h
      exact lookup_mapModify_eq k es hd
    · simp at h

theorem branchKV_lookup (c : Bool) (k : List Char) (f : Except Unit JVal)
    (mk : JVal → List JVal) (hd : HD) (k' : List Char) :
    (branchKV c k f mk hd).lookup k'
      = if k' = k then branchStep c f mk (hd.lookup k') else hd.lookup k' := by
  by_cases he : k' = k
  · subst he
    rw [if_pos rfl]
    unfold branchKV branchStep
    by_cases hc : c
    · rw [if_pos hc, if_pos hc]
      rcases f with e | v
      · rfl
      · exact applyAppend_lookup_eq k' hd (mk v)
    · rw [if_neg hc, if_neg hc]
  · rw [if_neg he]
    unfold branchKV
    by_cases hc : c
    · rw [if_pos hc]
      rcases f with e | v
      · rfl
      · exact applyAppend_lookup_ne he hd (mk v)
    · rw [if_neg hc]

theorem summaryStep_pres {c : Bool} {key : List Char}
    {b : Except Unit JVal} {hd hd2 : HD} {k' : List Char} (hne : k' ≠ key)
    (h : summaryStep c key b hd = some hd2) : hd2.lookup k' = hd.lookup k' := by
  unfold summaryStep at h
  split at h
  · split at h
    · simp at h
    · unfold appendEntries at h
      split at h
      · simp at h
        subst h
        exact lookup_mapModify_ne hne _ hd
      · simp at h
  · simp at h
    subst h
    rfl

theorem summarySeq_pres {k' : List Char} :
    ∀ (steps : List (HD → Option HD)) (hd : HD),
      (∀ s ∈ steps, ∀ hd1 hd2, s hd1 = some hd2 → hd2.lookup k' = hd1.lookup k') →
      (summarySeq steps hd).lookup k' = hd.lookup k' := by
  intro steps
  induction steps with
  | nil => intro hd _; rfl
  | cons s rest ih =>
    intro hd hall
    unfold summarySeq
    rcases hs : s hd with _ | hd2
    · rfl
    · rw [ih hd2 (fun t ht => hall t (by simp [ht]))]
      exact hall s (by simp) hd hd2 hs

theorem summaryBranch_lookup_ne {k' : List Char}
    (h : summaryMetricNames.all (fun m => !(k' == m.data)) = true)
    (mtf : List String) (fetch : Except Unit JVal) (d : String) (hd : HD) :
    (summaryBranch mtf fetch d hd).lookup k' = hd.lookup k' := by
  have hne : ∀ m ∈ summaryMetricNames, k' ≠ m.data := by
    intro m hm
    have := List.all_eq_true.1 h m hm
    simpa using this
  unfold summaryBranch
  split
  · rcases fetch with e | v
    · rfl
    · dsimp only
      split
      · apply summarySeq_pres
        intro s hs hd1 hd2 hstep
        simp only [List.mem_cons, List.not_mem_nil, or_false] at hs
        rcases hs with rfl | rfl | rfl | rfl | rfl
        · exact summaryStep_pres (hne "steps" (by simp [summaryMetricNames])) hstep
        · exact summaryStep_pres
            (hne "total_distance" (by simp [summaryMetricNames])) hstep
        · exact summaryStep_pres
            (hne "highly_active_seconds" (by simp [summaryMetricNames])) hstep
        · exact summaryStep_pres
            (hne "active_seconds" (by simp [summaryMetricNames])) hstep
        · exact summaryStep_pres
            (hne "sedentary_seconds" (by simp [summaryMetricNames])) hstep
      · rfl
  · rfl


theorem branchKV_lookup_ne {k k' : List Char} (h : (k' == k) = false)
    (c : Bool) (f : Except Unit JVal) (mk : JVal → List JVal) (hd : HD) :
    (branchKV c k f mk hd).lookup k' = hd.lookup k' := by
  rw [branchKV_lookup, if_neg]
  exact beq_eq_false_iff_ne.1 h

theorem branchKV_lookup_eqk {k k' : List Char} (h : (k' == k) = true)
    (c : Bool) (f : Except Unit JVal) (mk : JVal → List JVal) (hd : HD) :
    (branchKV c k f mk hd).lookup k' = branchStep c f mk (hd.lookup k') := by
  have he : k' = k := eq_of_beq h
  subst he
  rw [branchKV_lookup, if_pos rfl]

theorem appendEntries_keys {hd hd2 : HD} {k : List Char} {es : List JVal}
    (h : appendEntries hd k es = some hd2) :
    hd2.map Prod.fst = hd.map Prod.fst := by
  unfold appendEntries at h
  split at h
  · rw [Option.some.injEq] at h
    subst h
    rw [List.map_map]
    apply List.map_congr_left
    intro p _
    by_cases hpk : p.1 = k <;> simp [Function.comp, hpk]
  · simp at h

theorem applyAppend_keys (hd : HD) (k : List Char) (es : List JVal) :
    (applyAppend hd k es).map Prod.fst = hd.map Prod.fst := by
  unfold applyAppend
  rcases h : appendEntries hd k es with _ | hd2
  · rfl
  · exact appendEntries_keys h

theorem branchKV_keys (c : Bool) (k : List Char) (f : Except Unit JVal)
    (mk : JVal → List JVal) (hd : HD) :
    (branchKV c k f mk hd).map Prod.fst = hd.map Prod.fst := by
  unfold branchKV
  split
  · rcases f with e | v
    · rfl
    · exact applyAppend_keys hd k (mk v)
  · rfl

theorem summaryStep_keys {c : Bool} {key : List Char} {b : Except Unit JVal}
    {hd hd2 : HD} (h : summaryStep c key b hd = some hd2) :
    hd2.map Prod.fst = hd.map Prod.fst := by
  unfold summaryStep at h
  split at h
  · split at h
    · simp at h
    · exact appendEntries_keys h
  · rw [Option.some.injEq] at h
    subst h
    rfl

theorem summarySeq_keys :
    ∀ (steps : List (HD → Option HD)) (hd : HD),
      (∀ s ∈ steps, ∀ hd1 hd2, s hd1 = some hd2 →
        hd2.map Prod.fst = hd1.map Prod.fst) →
      (summarySeq steps hd).map Prod.fst = hd.map Prod.fst := by
  intro steps
  induction steps with
  | nil => intro hd _; rfl
  | cons s rest ih =>
    intro hd hall
    unfold summarySeq
    rcases hs : s hd with _ | hd2
    · rfl
    · rw [ih hd2 (fun t ht => hall t (by simp [ht]))]
      exact hall s (by simp) hd hd2 hs

theorem summaryBranch_keys (mtf : List String) (fetch : Except Unit JVal)
    (d : String) (hd : HD) :
    (summaryBranch mtf fetch d hd).map Prod.fst = hd.map Prod.fst := by
  unfold summaryBranch
  split
  · rcases fetch with e | v
    · rfl
    · dsimp only
      split
      · apply summarySeq_keys
        intro s hs hd1 hd2 hstep
        simp only [List.mem_cons, List.not_mem_nil, or_false] at hs
        rcases hs with rfl | rfl | rfl | rfl | rfl
          <;> exact summaryStep_keys hstep
      · rfl
  · rfl

theorem perDate_keys (P : Provider) (mtf : List String) (d : String) (hd : HD) :
    (perDate P mtf d hd).map Prod.fst = hd.map Prod.fst := by
  simp only [perDate, branchKV_keys, summaryBranch_keys]

theorem dateIndependent_keys (P : Provider) (mtf : List String) (sd : String)
    (hd : HD) : (dateIndependent P mtf sd hd).map Prod.fst = hd.map Prod.fst := by
  simp only [dateIndependent, branchKV_keys]

theorem buildHealth_keys (P : Provider) (mtf : List String) (sd : String)
    (dates : List String) :
    (buildHealth P mtf sd dates).map Prod.fst = healthInit.map Prod.fst := by
  unfold buildHealth
  have main : ∀ (ds : List String) (hd : HD),
      (ds.foldl (fun hd d => perDate P mtf d hd) hd).map Prod.fst
        = hd.map Prod.fst := by
    intro ds
    induction ds with
    | nil => intro hd; rfl
    | cons d rest ih =>
      intro hd
      rw [List.foldl_cons, ih, perDate_keys]
  rw [main, dateIndependent_keys]

theorem buildHealth_keyAllowed {P : Provider} {mtf : List String} {sd : String}
    {dates : List String} {p : List Char × List JVal}
    (hp : p ∈ buildHealth P mtf sd dates) : keyAllowed p.1 = true := by
  have h1 : p.1 ∈ (buildHealth P mtf sd dates).map Prod.fst :=
    List.mem_map_of_mem Prod.fst hp
  rw [buildHealth_keys] at h1
  have h2 : p.1 ∈ ALL_HEALTH_METRICS.map (fun m => m.data) := by
    simpa [healthInit, List.map_map, Function.comp] using h1
  rw [List.mem_map] at h2
  obtain ⟨m, hm, he⟩ := h2
  rw [← he]
  fin_cases hm <;> decide

theorem buildHealth_not_empty (P : Provider) (mtf : List String) (sd : String)
    (dates : List String) : (buildHealth P mtf sd dates).isEmpty = false := by
  have h := buildHealth_keys P mtf sd dates
  rcases hb : buildHealth P mtf sd dates with _ | ⟨p, rest⟩
  · rw [hb] at h
    simp [healthInit, ALL_HEALTH_METRICS] at h
  · rfl

theorem buildHealth_keys_nodup (P : Provider) (mtf : List String) (sd : String)
    (dates : List String) : ((buildHealth P mtf sd dates).map Prod.fst).Nodup := by
  rw [buildHealth_keys]
  decide


/-- The Provider call feeding a given metric kind (the fetch of lines
193-427 whose failure the claim isolates). -/
def feederAgree (k : String) (P Q : Provider) : Prop :=
  if k = "heart_rates" then P.get_heart_rates = Q.get_heart_rates
  else if k = "sleep" then P.get_sleep_data = Q.get_sleep_data
  else if k = "stress" then P.get_all_day_stress = Q.get_all_day_stress
  else if k = "respiration" then P.get_respiration_data = Q.get_respiration_data
  else if k = "spo2" then P.get_spo2_data = Q.get_spo2_data
  else if k = "intensity_minutes" then
    P.get_intensity_minutes_data = Q.get_intensity_minutes_data
  else if k = "training_readiness" then
    P.get_training_readiness = Q.get_training_readiness
  else if k = "training_status" then P.get_training_status = Q.get_training_status
  else if k = "max_metrics" then P.get_max_metrics = Q.get_max_metrics
  else if k = "hrv" then P.get_hrv_data = Q.get_hrv_data
  else if k = "lactate_threshold" then
    P.get_lactate_threshold = Q.get_lactate_threshold
  else if k = "endurance_score" then P.get_endurance_score = Q.get_endurance_score
  else if k = "hill_score" then P.get_hill_score = Q.get_hill_score
  else if k = "race_predictions" then
    P.get_race_predictions = Q.get_race_predictions
  else if k = "blood_pressure" then P.get_blood_pressure = Q.get_blood_pressure
  else if k = "body_battery" then P.get_body_battery = Q.get_body_battery
  else if k = "menstrual_data" then
    P.get_menstrual_data_for_date = Q.get_menstrual_data_for_date
  else if k = "floors" then P.get_floors = Q.get_floors
  else if k = "fitness_age" then P.get_fitnessage_data = Q.get_fitnessage_data
  else if k = "body_composition" then
    P.get_body_composition = Q.get_body_composition
  else True

theorem perDate_lookup_congr (P Q : Provider) (mtf : List String) (d : String)
    (hd hd' : HD) (k : String) (hk : k ∈ ALL_HEALTH_METRICS)
    (hfeed : feederAgree k P Q)
    (hl : hd.lookup k.data = hd'.lookup k.data) :
    (perDate P mtf d hd).lookup k.data = (perDate Q mtf d hd').lookup k.data := by
  fin_cases hk <;>
    · simp +decide only [feederAgree, if_true, if_false] at hfeed
      simp +decide only [perDate, branchKV_lookup_ne, branchKV_lookup_eqk,
        summaryBranch_lookup_ne]
      first
      | (rw [hfeed]; exact congrArg _ hl)
      | exact hl

theorem dateIndependent_lookup_congr (P Q : Provider) (mtf : List String)
    (sd : String) (hd hd' : HD) (k : String) (hk : k ∈ ALL_HEALTH_METRICS)
    (hfeed : feederAgree k P Q)
    (hl : hd.lookup k.data = hd'.lookup k.data) :
    (dateIndependent P mtf sd hd).lookup k.data
      = (dateIndependent Q mtf sd hd').lookup k.data := by
  fin_cases hk <;>
    first
    | (simp +decide only [feederAgree, if_true, if_false] at hfeed
       simp +decide only [dateIndependent, branchKV_lookup_ne,
         branchKV_lookup_eqk]
       rw [hfeed]
       exact congrArg _ hl)
    | (simp +decide only [dateIndependent, branchKV_lookup_ne,
         branchKV_lookup_eqk]
       exact hl)

theorem buildHealth_lookup_congr (P Q : Provider) (mtf : List String)
    (sd : String) (dates : List String) (k : String)
    (hk : k ∈ ALL_HEALTH_METRICS) (hfeed : feederAgree k P Q) :
    (buildHealth P mtf sd dates).lookup k.data
      = (buildHealth Q mtf sd dates).lookup k.data := by
  unfold buildHealth
  have main : ∀ (ds : List String) (h1 h2 : HD),
      h1.lookup k.data = h2.lookup k.data →
      (ds.foldl (fun hd d => perDate P mtf d hd) h1).lookup k.data
        = (ds.foldl (fun hd d => perDate Q mtf d hd) h2).lookup k.data := by
    intro ds
    induction ds with
    | nil => intro h1 h2 h; exact h
    | cons d rest ih =>
      intro h1 h2 h
      rw [List.foldl_cons, List.foldl_cons]
      exact ih _ _ (perDate_lookup_congr P Q mtf d h1 h2 k hk hfeed h)
  exact main dates _ _
    (dateIndependent_lookup_congr P Q mtf sd healthInit healthInit k hk hfeed rfl)


theorem cleanEntry_top (p : List Char × List JVal) (hk : keyAllowed p.1 = true) :
    cleanEntry (p.1, JVal.arr p.2) = some (p.1, clean_garmin_data (.arr p.2)) := by
  unfold cleanEntry
  have h1 : rawKeep p.1 (JVal.arr p.2) = true := by
    simp [rawKeep, JVal.isNull, JVal.pyZero, hk]
  have h2 : keepItem (clean_garmin_data (JVal.arr p.2)) = true := by
    rw [clean_arr_eq]
    simp [keepItem, JVal.isNull, JVal.pyZero]
  rw [if_pos (by rw [h1, h2]; rfl)]

theorem filterMap_cleanEntry_top :
    ∀ hd : HD, (∀ p ∈ hd, keyAllowed p.1 = true) →
      (hdToTop hd).filterMap cleanEntry
        = hd.map (fun p => (p.1, clean_garmin_data (.arr p.2))) := by
  intro hd
  induction hd with
  | nil => intro _; rfl
  | cons p rest ih =>
    intro hall
    have hstep : hdToTop (p :: rest) = (p.1, JVal.arr p.2) :: hdToTop rest := rfl
    rw [hstep, List.filterMap_cons_some (cleanEntry_top p (hall p (by simp))),
        ih (fun q hq => hall q (by simp [hq])), List.map_cons]

theorem top_clean_obj (hd : HD) (hne : hd.isEmpty = false)
    (hkeys : ∀ p ∈ hd, keyAllowed p.1 = true) :
    clean_garmin_data (.obj (hdToTop hd))
      = .obj (hd.map (fun p => (p.1, clean_garmin_data (.arr p.2)))) := by
  rw [clean_obj_eq, filterMap_cleanEntry_top hd hkeys, if_neg]
  rcases hd with _ | ⟨p, r⟩
  · simp at hne
  · simp

/-- `metric_types` with the empty-request default applied (line 156). -/
def mtfOf (req : HWRequest) : List String :=
  if req.metric_types.isEmpty then ALL_HEALTH_METRICS else req.metric_types

theorem hw_response (P : Provider) (req : HWRequest)
    (h1 : req.user_id.isEmpty = false) (h2 : req.tokens.isEmpty = false)
    (h3 : req.start_date.isEmpty = false) (h4 : req.end_date.isEmpty = false)
    (hlogin : P.login = .ok ()) (dates : List String)
    (hdates : get_dates_in_range req.start_date req.end_date = some dates) :
    get_health_and_wellness P req = .ok (.obj [
      ("user_id".data, .str req.user_id.data),
      ("start_date".data, .str req.start_date.data),
      ("end_date".data, .str req.end_date.data),
      ("data".data, .obj (((buildHealth P (mtfOf req) req.start_date dates).map
          (fun p => (p.1, clean_garmin_data (.arr p.2)))).filter
          (fun p => p.2.pyTruthy)))]) := by
  have hmt : (if req.metric_types.isEmpty then ALL_HEALTH_METRICS
      else req.metric_types) = mtfOf req := rfl
  simp only [get_health_and_wellness]
  rw [if_neg (by simp [h1, h2, h3, h4]), hlogin]
  dsimp only
  rw [hdates]
  dsimp only
  rw [hmt, top_clean_obj _ (buildHealth_not_empty _ _ _ _)
      (fun p hp => buildHealth_keyAllowed hp)]

theorem hw_responseData (P : Provider) (req : HWRequest)
    (h1 : req.user_id.isEmpty = false) (h2 : req.tokens.isEmpty = false)
    (h3 : req.start_date.isEmpty = false) (h4 : req.end_date.isEmpty = false)
    (hlogin : P.login = .ok ()) (dates : List String)
    (hdates : get_dates_in_range req.start_date req.end_date = some dates) :
    responseData (get_health_and_wellness P req)
      = ((buildHealth P (mtfOf req) req.start_date dates).map
          (fun p => (p.1, clean_garmin_data (.arr p.2)))).filter
          (fun p => p.2.pyTruthy) := by
  rw [hw_response P req h1 h2 h3 h4 hlogin dates hdates]
  rfl

theorem lookup_none_of_not_mem_keys {α : Type} :
    ∀ (l : List (List Char × α)) (k : List Char),
      k ∉ l.map Prod.fst → l.lookup k = none := by
  intro l
  induction l with
  | nil => intro k _; rfl
  | cons p rest ih =>
    intro k hk
    simp only [List.map_cons, List.mem_cons] at hk
    push_neg at hk
    obtain ⟨hk1, hk2⟩ := hk
    have hb : (k == p.1) = false := by simp [hk1]
    simp [List.lookup, hb, ih _ hk2]


theorem lookup_cons_beq_true {α : Type} {k a : List Char} {b : α}
    {l : List (List Char × α)} (h : (k == a) = true) :
    ((a, b) :: l).lookup k = some b := by
  simp [List.lookup, h]

theorem lookup_cons_beq_false {α : Type} {k a : List Char} {b : α}
    {l : List (List Char × α)} (h : (k == a) = false) :
    ((a, b) :: l).lookup k = l.lookup k := by
  simp [List.lookup, h]

/-- What the final `data` mapping holds at a metric key, in terms of the raw
`health_data` entry list at that key. -/
theorem fd_lookup :
    ∀ (hd : HD) (k : List Char), ((hd.map Prod.fst).Nodup) →
      ((hd.map (fun p => (p.1, clean_garmin_data (.arr p.2)))).filter
          (fun p => p.2.pyTruthy)).lookup k
        = (match hd.lookup k with
           | none => none
           | some l => if (clean_garmin_data (.arr l)).pyTruthy
                       then some (clean_garmin_data (.arr l)) else none) := by
  intro hd
  induction hd with
  | nil => intro k _; rfl
  | cons p rest ih =>
    rcases p with ⟨a, b⟩
    intro k hnd
    rw [List.map_cons, List.nodup_cons] at hnd
    obtain ⟨hp1, hnd2⟩ := hnd
    rw [List.map_cons]
    by_cases ht : (clean_garmin_data (JVal.arr b)).pyTruthy = true
    · rw [List.filter_cons_of_pos (by exact ht)]
      rcases hk : (k == a) with _ | _
      · rw [lookup_cons_beq_false hk, lookup_cons_beq_false hk, ih k hnd2]
      · rw [lookup_cons_beq_true hk, lookup_cons_beq_true hk]
        dsimp only
        rw [if_pos ht]
    · have htf : (clean_garmin_data (JVal.arr b)).pyTruthy = false := by
        simpa using ht
      rw [List.filter_cons_of_neg (by simp [htf])]
      rcases hk : (k == a) with _ | _
      · rw [lookup_cons_beq_false hk, ih k hnd2]
      · have hke : k = a := eq_of_beq hk
        rw [lookup_cons_beq_true hk]
        dsimp only
        rw [if_neg (by simp [htf])]
        apply lookup_none_of_not_mem_keys
        intro hmem
        apply hp1
        rw [List.mem_map] at hmem
        obtain ⟨q, hq, hq2⟩ := hmem
        have hq3 := List.mem_of_mem_filter hq
        rw [List.mem_map] at hq3
        obtain ⟨r, hr, hr2⟩ := hq3
        rw [← hke, ← hq2, ← hr2]
        show r.1 ∈ List.map Prod.fst rest
        exact List.mem_map_of_mem Prod.fst hr


/-- A stress summary with non-empty data, as returned by a succeeding
`get_all_day_stress`. -/
def stressSample : JVal := .obj [("overallStressLevel".data, .num 25)]

/-- The request of the claim's concrete scenario: metric kinds
`["sleep", "stress"]` over 2024-01-01..2024-01-03. -/
def hwScenarioReq : HWRequest :=
  ⟨"u", "t", "2024-01-01", "2024-01-03", ["sleep", "stress"]⟩

/-- C1: Per-metric fault isolation, end to end. (i) A well-formed request
(non-empty fields, parsable dates) with a successful login always completes
with a 200 response, whatever any metric fetch returns. (ii) If two
providers agree on the fetch feeding metric kind `k` — while every other
fetch may differ arbitrarily, e.g. raise in one and succeed in the other —
the response `data` mapping is identical at `k`: a provider exception in one
metric fetch never removes or alters another metric kind's entries. (iii) In
the concrete scenario with metric kinds `["sleep", "stress"]` where every
sleep fetch raises and every stress fetch returns non-empty data, the call
returns 200, its `data` contains `"stress"` and omits `"sleep"`. -/
theorem hw_per_metric_fault_isolation :
    (∀ (P : Provider) (req : HWRequest) (dates : List String),
        req.user_id.isEmpty = false → req.tokens.isEmpty = false →
        req.start_date.isEmpty = false → req.end_date.isEmpty = false →
        P.login = .ok () →
        get_dates_in_range req.start_date req.end_date = some dates →
        ∃ body, get_health_and_wellness P req = .ok body) ∧
    (∀ (P Q : Provider) (req : HWRequest) (dates : List String) (k : String),
        req.user_id.isEmpty = false → req.tokens.isEmpty = false →
        req.start_date.isEmpty = false → req.end_date.isEmpty = false →
        P.login = .ok () → Q.login = .ok () →
        get_dates_in_range req.start_date req.end_date = some dates →
        k ∈ ALL_HEALTH_METRICS → feederAgree k P Q →
        (responseData (get_health_and_wellness P req)).lookup k.data
          = (responseData (get_health_and_wellness Q req)).lookup k.data) ∧
    (∀ P : Provider, P.login = .ok () →
        (∀ d, P.get_sleep_data d = .error ()) →
        (∀ d, P.get_all_day_stress d = .ok stressSample) →
        (∃ body, get_health_and_wellness P hwScenarioReq = .ok body) ∧
        ((responseData (get_health_and_wellness P hwScenarioReq)).lookup
            "stress".data).isSome = true ∧
        (responseData (get_health_and_wellness P hwScenarioReq)).lookup
            "sleep".data = none) := by
  refine ⟨?_, ?_, ?_⟩
  · intro P req dates h1 h2 h3 h4 hlogin hdates
    exact ⟨_, hw_response P req h1 h2 h3 h4 hlogin dates hdates⟩
  · intro P Q req dates k h1 h2 h3 h4 hloginP hloginQ hdates hk hfeed
    rw [hw_responseData P req h1 h2 h3 h4 hloginP dates hdates,
        hw_responseData Q req h1 h2 h3 h4 hloginQ dates hdates,
        fd_lookup _ _ (buildHealth_keys_nodup _ _ _ _),
        fd_lookup _ _ (buildHealth_keys_nodup _ _ _ _),
        buildHealth_lookup_congr P Q (mtfOf req) req.start_date dates k hk hfeed]
  · intro P hlogin hsleep hstress
    have hdates : get_dates_in_range hwScenarioReq.start_date
        hwScenarioReq.end_date
        = some ["2024-01-01", "2024-01-02", "2024-01-03"] := by decide
    have hrd := hw_responseData P hwScenarioReq rfl rfl rfl rfl hlogin
      ["2024-01-01", "2024-01-02", "2024-01-03"] hdates
    refine ⟨⟨_, hw_response P hwScenarioReq rfl rfl rfl rfl hlogin _ hdates⟩,
      ?_, ?_⟩
    · rw [hrd, fd_lookup _ _ (buildHealth_keys_nodup _ _ _ _)]
      simp +decide only [buildHealth, List.foldl_cons, List.foldl_nil, perDate,
        dateIndependent, branchKV_lookup_ne, branchKV_lookup_eqk,
        summaryBranch_lookup_ne]
      simp only [hstress]
      decide
    · rw [hrd, fd_lookup _ _ (buildHealth_keys_nodup _ _ _ _)]
      simp +decide only [buildHealth, List.foldl_cons, List.foldl_nil, perDate,
        dateIndependent, branchKV_lookup_ne, branchKV_lookup_eqk,
        summaryBranch_lookup_ne]
      simp only [hsleep]
      rw [← Option.not_isSome_iff_eq_none]
      decide

/-- The scenario provider: login succeeds, every sleep fetch raises, every
stress fetch returns non-empty data, everything else raises. -/
def scenarioProvider : Provider :=
  { noProvider with
    login := .ok ()
    get_all_day_stress := fun _ => .ok stressSample }

theorem hw_per_metric_fault_isolation_witness :
    ((responseData (get_health_and_wellness scenarioProvider
        hwScenarioReq)).lookup "stress".data).isSome = true ∧
    (responseData (get_health_and_wellness scenarioProvider
        hwScenarioReq)).lookup "sleep".data = none :=
  ⟨(hw_per_metric_fault_isolation.2.2 scenarioProvider rfl (fun _ => rfl)
      (fun _ => rfl)).2.1,
   (hw_per_metric_fault_isolation.2.2 scenarioProvider rfl (fun _ => rfl)
      (fun _ => rfl)).2.2⟩
end Sparky
